import Mathlib

/-!
Verification development for the mcryptoex event pipeline and quote engine.

The Python sources are shallowly embedded: `decimal.Decimal` arithmetic is
modelled as exact rationals (`ℚ`), machine integers as `ℤ`/`ℕ`, fallible code
as `Except`/`Option`, and effectful pipeline steps as explicit state passing
producing lists of effect descriptors.  Each definition is translated from the
corresponding function in the repository, named after it where Lean allows.
-/

namespace Mcryptoex

/-! ## Quote engine arithmetic (`apps/api/quote_engine.py`) -/

/-- `_amount_out_constant_product` from `apps/api/quote_engine.py` (lines
249-255).  `Decimal` arithmetic is modelled as exact rational arithmetic;
`fee_bps` is the Python `int` argument. -/
def amountOutConstantProduct (amount_in reserve_in reserve_out : ℚ) (fee_bps : ℤ) : ℚ :=
  let fee_multiplier : ℚ := ((10000 - fee_bps : ℤ) : ℚ)
  let numerator := amount_in * fee_multiplier * reserve_out
  let denominator := reserve_in * 10000 + amount_in * fee_multiplier
  if denominator ≤ 0 then 0 else numerator / denominator

/-- The no-fee constant-product bound `amount_in × reserve_out / (reserve_in + amount_in)`. -/
def noFeeBound (amount_in reserve_in reserve_out : ℚ) : ℚ :=
  amount_in * reserve_out / (reserve_in + amount_in)

end Mcryptoex

namespace Mcryptoex

/-- C4, as stated, is false: with `fee_bps = 0` the constant-product output
equals the no-fee bound, so it is not strictly less.  At
`amount_in = reserve_in = reserve_out = 1`, `fee_bps = 0` (all constraints of
the claim hold) the output is `1/2`, exactly the no-fee bound. -/
theorem C4_counterexample :
    (0 : ℚ) < 1 ∧ (0 : ℤ) ≤ 0 ∧ (0 : ℤ) ≤ 10000 ∧
    amountOutConstantProduct 1 1 1 0 = noFeeBound 1 1 1 ∧
    ¬ amountOutConstantProduct 1 1 1 0 < noFeeBound 1 1 1 := by
  refine ⟨by norm_num, le_refl 0, by norm_num, ?_, ?_⟩ <;>
    simp [amountOutConstantProduct, noFeeBound] <;> norm_num

/-- C4 (amended): for `amount_in, reserve_in, reserve_out > 0` and
`fee_bps ∈ [0, 10000]`, the constant-product output is at most `reserve_out`
and at most the no-fee bound, and it is strictly below the no-fee bound
whenever `fee_bps > 0` (with `fee_bps = 0` the two are equal). -/
theorem C4_amount_out_bounds (a ri ro : ℚ) (fee_bps : ℤ)
    (ha : 0 < a) (hri : 0 < ri) (hro : 0 < ro)
    (hf0 : 0 ≤ fee_bps) (hf1 : fee_bps ≤ 10000) :
    amountOutConstantProduct a ri ro fee_bps ≤ ro ∧
    amountOutConstantProduct a ri ro fee_bps ≤ noFeeBound a ri ro ∧
    (0 < fee_bps → amountOutConstantProduct a ri ro fee_bps < noFeeBound a ri ro) := by
  have hq1 : ((fee_bps : ℚ)) ≤ 10000 := by exact_mod_cast hf1
  have hq0 : (0 : ℚ) ≤ (fee_bps : ℚ) := by exact_mod_cast hf0
  have hfq0 : (0 : ℚ) ≤ ((10000 - fee_bps : ℤ) : ℚ) := by push_cast; linarith
  have hfq1 : ((10000 - fee_bps : ℤ) : ℚ) ≤ 10000 := by push_cast; linarith
  set f : ℚ := ((10000 - fee_bps : ℤ) : ℚ) with hf
  have hden : 0 < ri * 10000 + a * f := by positivity
  have hsum : 0 < ri + a := by linarith
  have hout : amountOutConstantProduct a ri ro fee_bps = a * f * ro / (ri * 10000 + a * f) := by
    simp only [amountOutConstantProduct, ← hf]
    rw [if_neg (by linarith)]
  refine ⟨?_, ?_, ?_⟩
  · rw [hout, div_le_iff₀ hden]
    nlinarith [mul_pos (mul_pos hro hri) (show (0 : ℚ) < 10000 by norm_num)]
  · rw [hout, noFeeBound, div_le_div_iff₀ hden hsum]
    nlinarith [mul_nonneg (mul_nonneg (mul_nonneg ha.le hro.le) hri.le)
      (sub_nonneg.mpr hfq1)]
  · intro hpos
    have hflt : f < 10000 := by
      rw [hf]; push_cast
      have : (0 : ℚ) < (fee_bps : ℚ) := by exact_mod_cast hpos
      linarith
    rw [hout, noFeeBound, div_lt_div_iff₀ hden hsum]
    nlinarith [mul_pos (mul_pos (mul_pos ha hro) hri) (sub_pos.mpr hflt)]

/-- Witness for `C4_amount_out_bounds` at `a = 1, ri = 1, ro = 2, fee_bps = 30`. -/
theorem C4_amount_out_bounds_witness :
    amountOutConstantProduct 1 1 2 30 ≤ 2 ∧
    amountOutConstantProduct 1 1 2 30 ≤ noFeeBound 1 1 2 ∧
    (0 < (30 : ℤ) → amountOutConstantProduct 1 1 2 30 < noFeeBound 1 1 2) :=
  C4_amount_out_bounds 1 1 2 30 (by norm_num) (by norm_num) (by norm_num)
    (by norm_num) (by norm_num)

end Mcryptoex

namespace Mcryptoex

/-- Python `str.lower()` (per-character, as in `String.toLower`). -/
def pyToLower (s : String) : String := ⟨s.data.map Char.toLower⟩

/-- Python `str.upper()` (per-character, as in `String.toUpper`). -/
def pyToUpper (s : String) : String := ⟨s.data.map Char.toUpper⟩

/-! ## Ledger writer (`services/ledger-writer/main.py`) -/

/-- One row of `dex_ledger_entries` as built by `_build_ledger_rows`.
`Decimal` columns are rationals; `occurred_at` is an abstract timestamp. -/
structure LedgerRow where
  tx_id : String
  note_id : String
  chain_id : ℤ
  tx_hash : String
  account_id : String
  side : String
  asset : String
  amount : ℚ
  entry_type : String
  fee_usd : ℚ
  gas_cost_usd : ℚ
  protocol_revenue_usd : ℚ
  pool_address : String
  occurred_at : ℤ
deriving DecidableEq, Repr

/-- The fields of the `base` dict that `add_pair` shares between the debit and
the credit row, other than per-tuple `entry_type`, `asset`, `amount`. -/
structure LedgerCtx where
  tx_id : String
  note_id : String
  chain_id : ℤ
  tx_hash : String
  fee_usd : ℚ
  gas_cost_usd : ℚ
  protocol_revenue_usd : ℚ
  pool_address : String
  occurred_at : ℤ
deriving DecidableEq, Repr

/-- The positional arguments of one `add_pair(entry_type, debit_account,
credit_account, asset, amount)` call inside `_build_ledger_rows`. -/
structure PairSpec where
  entry_type : String
  debit_account : String
  credit_account : String
  asset : String
  amount : ℚ
deriving DecidableEq, Repr

/-- `add_pair` from `_build_ledger_rows` (lines 307-339): skip when
`amount ≤ 0`, otherwise emit a debit row and a credit row over the shared
base. -/
def add_pair (ctx : LedgerCtx) (t : PairSpec) : List LedgerRow :=
  if t.amount ≤ 0 then []
  else
    [ { tx_id := ctx.tx_id, note_id := ctx.note_id, chain_id := ctx.chain_id,
        tx_hash := ctx.tx_hash, account_id := t.debit_account, side := "debit",
        asset := t.asset, amount := t.amount, entry_type := t.entry_type,
        fee_usd := ctx.fee_usd, gas_cost_usd := ctx.gas_cost_usd,
        protocol_revenue_usd := ctx.protocol_revenue_usd,
        pool_address := ctx.pool_address, occurred_at := ctx.occurred_at },
      { tx_id := ctx.tx_id, note_id := ctx.note_id, chain_id := ctx.chain_id,
        tx_hash := ctx.tx_hash, account_id := t.credit_account, side := "credit",
        asset := t.asset, amount := t.amount, entry_type := t.entry_type,
        fee_usd := ctx.fee_usd, gas_cost_usd := ctx.gas_cost_usd,
        protocol_revenue_usd := ctx.protocol_revenue_usd,
        pool_address := ctx.pool_address, occurred_at := ctx.occurred_at } ]

/-- The list of `add_pair(entry_type, debit_account, credit_account, asset,
amount)` calls that `_build_ledger_rows` (lines 286-389) makes for each
action, in source order. -/
def build_ledger_specs (action user_address pool_address : String)
    (chain_id : ℤ) (token_in token_out : String)
    (amount_in amount_out fee_usd gas_cost_usd protocol_revenue_usd : ℚ) :
    List PairSpec :=
  let user_account := "user:" ++ pyToLower user_address
  let pool_account := "pool:" ++ pyToLower pool_address
  let network_account := "network:" ++ toString chain_id
  if action = "SWAP" then
    [ ⟨"swap_notional_in", user_account, pool_account, token_in, amount_in⟩,
      ⟨"swap_notional_out", pool_account, user_account, token_out, amount_out⟩,
      ⟨"trade_fee_usd", user_account, "protocol:treasury", "USD", fee_usd⟩,
      ⟨"protocol_revenue_usd", pool_account, "protocol:treasury", "USD", protocol_revenue_usd⟩,
      ⟨"gas_cost_usd", user_account, network_account, "USD", gas_cost_usd⟩ ]
  else if action = "LIQUIDITY_ADD" then
    [ ⟨"liquidity_add_in_a", user_account, pool_account, token_in, amount_in⟩,
      ⟨"liquidity_add_in_b", user_account, pool_account, token_out, amount_out⟩,
      ⟨"gas_cost_usd", user_account, network_account, "USD", gas_cost_usd⟩ ]
  else if action = "LIQUIDITY_REMOVE" then
    [ ⟨"liquidity_remove_out_a", pool_account, user_account, token_in, amount_in⟩,
      ⟨"liquidity_remove_out_b", pool_account, user_account, token_out, amount_out⟩,
      ⟨"gas_cost_usd", user_account, network_account, "USD", gas_cost_usd⟩ ]
  else if action = "MUSD_MINT" then
    [ ⟨"musd_mint_collateral", user_account, pool_account, token_in, amount_in⟩,
      ⟨"musd_mint_issue", pool_account, user_account, token_out, amount_out⟩,
      ⟨"gas_cost_usd", user_account, network_account, "USD", gas_cost_usd⟩ ]
  else if action = "MUSD_BURN" then
    [ ⟨"musd_burn_in", user_account, pool_account, token_in, amount_in⟩,
      ⟨"musd_burn_redeem", pool_account, user_account, token_out, amount_out⟩,
      ⟨"gas_cost_usd", user_account, network_account, "USD", gas_cost_usd⟩ ]
  else if action = "FEE_TRANSFERRED_TO_TREASURY" then
    [ ⟨"fee_transfer_to_treasury", pool_account, "protocol:treasury", token_in, amount_in⟩ ]
  else if action = "TREASURY_CONVERTED_TO_MUSD" then
    [ ⟨"treasury_convert_spend", "protocol:conversion", "protocol:treasury", token_in, amount_in⟩,
      ⟨"treasury_convert_receive", "protocol:treasury", "protocol:conversion", token_out, amount_out⟩ ]
  else if action = "DISTRIBUTION_EXECUTED" then
    [ ⟨"treasury_distribution", user_account, "protocol:treasury", "mUSD", amount_in⟩ ]
  else []

/-- `_build_ledger_rows` (lines 286-389): the sequence of `add_pair`
invocations appending to `rows`, rendered as a `flatMap` of `add_pair` over
the per-action call table `build_ledger_specs`. -/
def build_ledger_rows (tx_id note_id : String) (chain_id : ℤ)
    (tx_hash action user_address pool_address token_in token_out : String)
    (amount_in amount_out fee_usd gas_cost_usd protocol_revenue_usd : ℚ)
    (occurred_at : ℤ) : List LedgerRow :=
  let ctx : LedgerCtx :=
    { tx_id := tx_id, note_id := note_id, chain_id := chain_id,
      tx_hash := tx_hash, fee_usd := fee_usd, gas_cost_usd := gas_cost_usd,
      protocol_revenue_usd := protocol_revenue_usd,
      pool_address := pool_address, occurred_at := occurred_at }
  (build_ledger_specs action user_address pool_address chain_id token_in
    token_out amount_in amount_out fee_usd gas_cost_usd
    protocol_revenue_usd).flatMap (add_pair ctx)

end Mcryptoex

namespace Mcryptoex

/-- Rows emitted by a single `add_pair` call carry that call's positive
amount, entry type, asset, the shared base fields, and a side in
`{debit, credit}`. -/
lemma mem_add_pair {ctx : LedgerCtx} {t : PairSpec} {r : LedgerRow}
    (h : r ∈ add_pair ctx t) :
    0 < t.amount ∧ r.amount = t.amount ∧ r.entry_type = t.entry_type ∧
    r.asset = t.asset ∧ r.tx_id = ctx.tx_id ∧ r.note_id = ctx.note_id ∧
    r.chain_id = ctx.chain_id ∧ r.tx_hash = ctx.tx_hash ∧
    r.fee_usd = ctx.fee_usd ∧ r.gas_cost_usd = ctx.gas_cost_usd ∧
    r.protocol_revenue_usd = ctx.protocol_revenue_usd ∧
    r.pool_address = ctx.pool_address ∧ r.occurred_at = ctx.occurred_at ∧
    (r.side = "debit" ∨ r.side = "credit") := by
  by_cases hle : t.amount ≤ 0
  · simp [add_pair, hle] at h
  · simp only [add_pair, if_neg hle, List.mem_cons, List.mem_singleton,
      List.not_mem_nil, or_false] at h
    rcases h with h | h <;> subst h <;>
      exact ⟨lt_of_not_le hle, rfl, rfl, rfl, rfl, rfl, rfl, rfl, rfl, rfl,
        rfl, rfl, rfl, by simp⟩

/-- The debit-side count of one `add_pair` for a given entry type and asset. -/
lemma countP_debit_add_pair (ctx : LedgerCtx) (t : PairSpec) (et a : String) :
    (add_pair ctx t).countP
        (fun s => s.side == "debit" && s.entry_type == et && s.asset == a) =
      if 0 < t.amount ∧ t.entry_type = et ∧ t.asset = a then 1 else 0 := by
  by_cases hle : t.amount ≤ 0
  · simp [add_pair, hle, not_lt.mpr hle]
  · simp only [add_pair, if_neg hle, List.countP_cons, List.countP_nil]
    by_cases h1 : t.entry_type = et
    · by_cases h2 : t.asset = a
      · simp [h1, h2, lt_of_not_le hle]
      · simp [h1, h2]
    · simp [h1]

/-- The credit-side count of one `add_pair` for a given entry type and asset. -/
lemma countP_credit_add_pair (ctx : LedgerCtx) (t : PairSpec) (et a : String) :
    (add_pair ctx t).countP
        (fun s => s.side == "credit" && s.entry_type == et && s.asset == a) =
      if 0 < t.amount ∧ t.entry_type = et ∧ t.asset = a then 1 else 0 := by
  by_cases hle : t.amount ≤ 0
  · simp [add_pair, hle, not_lt.mpr hle]
  · simp only [add_pair, if_neg hle, List.countP_cons, List.countP_nil]
    by_cases h1 : t.entry_type = et
    · by_cases h2 : t.asset = a
      · simp [h1, h2, lt_of_not_le hle]
      · simp [h1, h2]
    · simp [h1]

/-- Counting over the concatenation of the `add_pair` outputs reduces to a
per-call count. -/
lemma countP_flatMap_add_pair (ctx : LedgerCtx) (ts : List PairSpec)
    (p : LedgerRow → Bool)
    (f : PairSpec → ℕ) (hf : ∀ t, (add_pair ctx t).countP p = f t) :
    (ts.flatMap (add_pair ctx)).countP p = (ts.map f).sum := by
  induction ts with
  | nil => simp
  | cons t ts ih =>
    simp [List.flatMap_cons, List.countP_append, hf, ih]

/-- In a list of pair specs with pairwise-distinct entry types, two members
with the same entry type are the same spec. -/
lemma pairSpec_eq_of_entry_type (ts : List PairSpec)
    (hd : ts.Pairwise (fun t u => t.entry_type ≠ u.entry_type)) :
    ∀ t ∈ ts, ∀ u ∈ ts, t.entry_type = u.entry_type → t = u := by
  induction ts with
  | nil => simp
  | cons v ts ih =>
    rcases List.pairwise_cons.mp hd with ⟨hv, hts⟩
    intro t ht u hu heq
    rcases List.mem_cons.mp ht with rfl | ht' <;>
      rcases List.mem_cons.mp hu with rfl | hu'
    · rfl
    · exact absurd heq (hv u hu')
    · exact absurd heq.symm (hv t ht')
    · exact ih hts t ht' u hu' heq

/-- With pairwise-distinct entry types, the summed per-spec indicator of a
spec known to match is exactly 1. -/
lemma sum_indicator_eq_one (et a : String) (ts : List PairSpec)
    (hd : ts.Pairwise (fun t u => t.entry_type ≠ u.entry_type))
    (t : PairSpec) (ht : t ∈ ts) (hamt : 0 < t.amount)
    (hets : t.entry_type = et) (has : t.asset = a) :
    (ts.map (fun u => if 0 < u.amount ∧ u.entry_type = et ∧ u.asset = a
        then 1 else 0)).sum = 1 := by
  induction ts with
  | nil => cases ht
  | cons v ts ih =>
    rcases List.pairwise_cons.mp hd with ⟨hv, hts⟩
    rcases List.mem_cons.mp ht with rfl | ht'
    · have hzero : ∀ u ∈ ts,
          (if 0 < u.amount ∧ u.entry_type = et ∧ u.asset = a then 1 else 0) = 0 := by
        intro u hu
        have : u.entry_type ≠ et := fun h => hv u hu (hets.trans h.symm)
        simp [this]
      have hpos : 0 < t.amount ∧ t.entry_type = et ∧ t.asset = a := ⟨hamt, hets, has⟩
      have hsum0 :
          (ts.map (fun u => if 0 < u.amount ∧ u.entry_type = et ∧ u.asset = a
            then 1 else 0)).sum = 0 := by
        apply List.sum_eq_zero
        intro x hx
        rcases List.mem_map.mp hx with ⟨u, hu, rfl⟩
        exact hzero u hu
      simp only [List.map_cons, List.sum_cons, if_pos hpos, hsum0]
    · have hvzero :
          (if 0 < v.amount ∧ v.entry_type = et ∧ v.asset = a then 1 else 0) = 0 := by
        have : v.entry_type ≠ et := fun h => hv t ht' (h.trans hets.symm)
        simp [this]
      simp only [List.map_cons, List.sum_cons, hvzero, Nat.zero_add]
      exact ih hts ht'

end Mcryptoex

namespace Mcryptoex

/-- Invariant of the `add_pair` concatenation for any call list with
pairwise-distinct entry types: positive amounts, exactly one debit and one
credit row per present `(entry_type, asset)`, equal amount and asset within an
entry type, and shared base fields. -/
lemma ledger_flatMap_invariant (ctx : LedgerCtx) (ts : List PairSpec)
    (hd : ts.Pairwise (fun t u => t.entry_type ≠ u.entry_type)) :
    (∀ r ∈ ts.flatMap (add_pair ctx), 0 < r.amount) ∧
    (∀ r ∈ ts.flatMap (add_pair ctx),
      (ts.flatMap (add_pair ctx)).countP
        (fun s => s.side == "debit" && s.entry_type == r.entry_type &&
          s.asset == r.asset) = 1 ∧
      (ts.flatMap (add_pair ctx)).countP
        (fun s => s.side == "credit" && s.entry_type == r.entry_type &&
          s.asset == r.asset) = 1) ∧
    (∀ r ∈ ts.flatMap (add_pair ctx), ∀ s ∈ ts.flatMap (add_pair ctx),
      r.entry_type = s.entry_type → r.amount = s.amount ∧ r.asset = s.asset) ∧
    (∀ r ∈ ts.flatMap (add_pair ctx),
      r.tx_id = ctx.tx_id ∧ r.note_id = ctx.note_id ∧
      r.chain_id = ctx.chain_id ∧ r.tx_hash = ctx.tx_hash ∧
      r.fee_usd = ctx.fee_usd ∧ r.gas_cost_usd = ctx.gas_cost_usd ∧
      r.protocol_revenue_usd = ctx.protocol_revenue_usd ∧
      r.pool_address = ctx.pool_address ∧ r.occurred_at = ctx.occurred_at ∧
      (r.side = "debit" ∨ r.side = "credit")) := by
  refine ⟨?_, ?_, ?_, ?_⟩
  · intro r hr
    rcases List.mem_flatMap.mp hr with ⟨t, _, hrt⟩
    rcases mem_add_pair hrt with ⟨hpos, hamt, _⟩
    exact hamt ▸ hpos
  · intro r hr
    rcases List.mem_flatMap.mp hr with ⟨t, htts, hrt⟩
    rcases mem_add_pair hrt with ⟨hpos, _, hret, hras, _⟩
    constructor
    · rw [countP_flatMap_add_pair ctx ts _
        (fun u => if 0 < u.amount ∧ u.entry_type = r.entry_type ∧
          u.asset = r.asset then 1 else 0)
        (fun u => countP_debit_add_pair ctx u r.entry_type r.asset)]
      exact sum_indicator_eq_one r.entry_type r.asset ts hd t htts hpos
        hret.symm hras.symm
    · rw [countP_flatMap_add_pair ctx ts _
        (fun u => if 0 < u.amount ∧ u.entry_type = r.entry_type ∧
          u.asset = r.asset then 1 else 0)
        (fun u => countP_credit_add_pair ctx u r.entry_type r.asset)]
      exact sum_indicator_eq_one r.entry_type r.asset ts hd t htts hpos
        hret.symm hras.symm
  · intro r hr s hs hrs
    rcases List.mem_flatMap.mp hr with ⟨t, htts, hrt⟩
    rcases List.mem_flatMap.mp hs with ⟨u, huts, hsu⟩
    rcases mem_add_pair hrt with ⟨_, hramt, hret, hras, _⟩
    rcases mem_add_pair hsu with ⟨_, hsamt, hset, hsas, _⟩
    have htu : t = u :=
      pairSpec_eq_of_entry_type ts hd t htts u huts
        (hret.symm.trans (hrs.trans hset))
    subst htu
    exact ⟨hramt.trans hsamt.symm, hras.trans hsas.symm⟩
  · intro r hr
    rcases List.mem_flatMap.mp hr with ⟨t, _, hrt⟩
    rcases mem_add_pair hrt with
      ⟨_, _, _, _, h1, h2, h3, h4, h5, h6, h7, h8, h9, h10⟩
    exact ⟨h1, h2, h3, h4, h5, h6, h7, h8, h9, h10⟩

end Mcryptoex

namespace Mcryptoex

/-- The entry types of the `add_pair` calls made for any action are pairwise
distinct. -/
lemma build_ledger_specs_entry_types_distinct
    (action user_address pool_address : String) (chain_id : ℤ)
    (token_in token_out : String)
    (amount_in amount_out fee_usd gas_cost_usd protocol_revenue_usd : ℚ) :
    (build_ledger_specs action user_address pool_address chain_id token_in
      token_out amount_in amount_out fee_usd gas_cost_usd
      protocol_revenue_usd).Pairwise
      (fun t u => t.entry_type ≠ u.entry_type) := by
  unfold build_ledger_specs
  dsimp only
  split_ifs <;> simp [List.pairwise_cons]

/-- C1: for every note processed by `_build_ledger_rows`, every emitted row
has a strictly positive amount (tuples with `amount ≤ 0` are skipped
entirely); for each `(entry_type, asset)` of an emitted row exactly one debit
row and exactly one credit row are present; rows of the same entry type share
the same amount and asset; and all rows share the common base fields
(`tx_id`, `note_id`, `chain_id`, `tx_hash`, `fee_usd`, `gas_cost_usd`,
`protocol_revenue_usd`, `pool_address`, `occurred_at`) with
`side ∈ {debit, credit}`. -/
theorem C1_build_ledger_rows_double_entry (tx_id note_id : String)
    (chain_id : ℤ)
    (tx_hash action user_address pool_address token_in token_out : String)
    (amount_in amount_out fee_usd gas_cost_usd protocol_revenue_usd : ℚ)
    (occurred_at : ℤ) :
    (∀ r ∈ build_ledger_rows tx_id note_id chain_id tx_hash action
        user_address pool_address token_in token_out amount_in amount_out
        fee_usd gas_cost_usd protocol_revenue_usd occurred_at, 0 < r.amount) ∧
    (∀ r ∈ build_ledger_rows tx_id note_id chain_id tx_hash action
        user_address pool_address token_in token_out amount_in amount_out
        fee_usd gas_cost_usd protocol_revenue_usd occurred_at,
      (build_ledger_rows tx_id note_id chain_id tx_hash action
        user_address pool_address token_in token_out amount_in amount_out
        fee_usd gas_cost_usd protocol_revenue_usd occurred_at).countP
        (fun s => s.side == "debit" && s.entry_type == r.entry_type &&
          s.asset == r.asset) = 1 ∧
      (build_ledger_rows tx_id note_id chain_id tx_hash action
        user_address pool_address token_in token_out amount_in amount_out
        fee_usd gas_cost_usd protocol_revenue_usd occurred_at).countP
        (fun s => s.side == "credit" && s.entry_type == r.entry_type &&
          s.asset == r.asset) = 1) ∧
    (∀ r ∈ build_ledger_rows tx_id note_id chain_id tx_hash action
        user_address pool_address token_in token_out amount_in amount_out
        fee_usd gas_cost_usd protocol_revenue_usd occurred_at,
      ∀ s ∈ build_ledger_rows tx_id note_id chain_id tx_hash action
        user_address pool_address token_in token_out amount_in amount_out
        fee_usd gas_cost_usd protocol_revenue_usd occurred_at,
      r.entry_type = s.entry_type → r.amount = s.amount ∧ r.asset = s.asset) ∧
    (∀ r ∈ build_ledger_rows tx_id note_id chain_id tx_hash action
        user_address pool_address token_in token_out amount_in amount_out
        fee_usd gas_cost_usd protocol_revenue_usd occurred_at,
      r.tx_id = tx_id ∧ r.note_id = note_id ∧ r.chain_id = chain_id ∧
      r.tx_hash = tx_hash ∧ r.fee_usd = fee_usd ∧
      r.gas_cost_usd = gas_cost_usd ∧
      r.protocol_revenue_usd = protocol_revenue_usd ∧
      r.pool_address = pool_address ∧ r.occurred_at = occurred_at ∧
      (r.side = "debit" ∨ r.side = "credit")) := by
  unfold build_ledger_rows
  exact ledger_flatMap_invariant _ _
    (build_ledger_specs_entry_types_distinct action user_address pool_address
      chain_id token_in token_out amount_in amount_out fee_usd gas_cost_usd
      protocol_revenue_usd)

end Mcryptoex

namespace Mcryptoex

/-! ## Python `decimal.Decimal` string semantics

Python's `Decimal(value)` constructor for strings: leading/trailing
whitespace and underscores are removed, then the decimal numeric-string
grammar applies (optional sign; digits with optional fractional part and
optional exponent; `Inf`/`Infinity`; `NaN`/`sNaN` with optional trailing
digits; all case-insensitive).  Finite values are modelled as exact
rationals. -/

/-- A `decimal.Decimal` value: finite, signed infinity, or (quiet/signalling)
NaN. -/
inductive PyDecimal where
  | fin (q : ℚ)
  | posInf
  | negInf
  | nan
deriving DecidableEq, Repr

/-- Whitespace characters stripped by Python from the ends of a string. -/
def isPyWhitespace (c : Char) : Bool :=
  c = ' ' || c = '\t' || c = '\n' || c = '\r' || c = '\x0b' || c = '\x0c'

/-- Python `str.strip()` (restricted to ASCII whitespace). -/
def pyStrip (s : String) : String :=
  ⟨((s.data.dropWhile isPyWhitespace).reverse.dropWhile isPyWhitespace).reverse⟩

/-- Numeric value of a list of ASCII digits. -/
def natOfDigits (cs : List Char) : ℕ :=
  cs.foldl (fun a c => 10 * a + (c.toNat - 48)) 0

/-- Parse the exponent digits (after the `e`/`E` indicator): optional sign
then at least one digit. -/
def parseExpPart : List Char → Option ℤ
  | [] => none
  | '+' :: ds =>
      if ds ≠ [] ∧ ds.all Char.isDigit then some (natOfDigits ds) else none
  | '-' :: ds =>
      if ds ≠ [] ∧ ds.all Char.isDigit then some (-(natOfDigits ds : ℤ)) else none
  | ds =>
      if ds.all Char.isDigit then some (natOfDigits ds) else none

/-- Parse `digits ['.' digits]` / `'.' digits` into the combined digit value
and the length of the fractional part. -/
def parseMantissaPart (cs : List Char) : Option (ℕ × ℕ) :=
  let ip := cs.takeWhile Char.isDigit
  let rest := cs.dropWhile Char.isDigit
  match rest with
  | [] => if ip = [] then none else some (natOfDigits ip, 0)
  | '.' :: fp =>
      if fp.all Char.isDigit ∧ (ip ≠ [] ∨ fp ≠ [])
      then some (natOfDigits (ip ++ fp), fp.length) else none
  | _ => none

/-- Parse an unsigned numeric value (already lowercased, sign removed). -/
def parseNumericValue (cs : List Char) : Option PyDecimal :=
  if cs = ['i','n','f'] ∨ cs = ['i','n','f','i','n','i','t','y'] then
    some .posInf
  else if cs.take 3 = ['n','a','n'] ∧ (cs.drop 3).all Char.isDigit then
    some .nan
  else if cs.take 4 = ['s','n','a','n'] ∧ (cs.drop 4).all Char.isDigit then
    some .nan
  else
    let m := cs.takeWhile (fun c => c ≠ 'e')
    let rest := cs.dropWhile (fun c => c ≠ 'e')
    match parseMantissaPart m with
    | none => none
    | some (mv, flen) =>
        match rest with
        | [] => some (.fin ((mv : ℚ) / (10 : ℚ) ^ flen))
        | _ :: ecs =>
            match parseExpPart ecs with
            | none => none
            | some e => some (.fin ((mv : ℚ) * (10 : ℚ) ^ (e - (flen : ℤ))))

/-- Negation of a `Decimal` (used for a leading `-` sign). -/
def PyDecimal.neg : PyDecimal → PyDecimal
  | .fin q => .fin (-q)
  | .posInf => .negInf
  | .negInf => .posInf
  | .nan => .nan

/-- `decimal.Decimal(s)` for a string: `some` value on success, `none` when
the constructor raises `InvalidOperation`. -/
def pyDecimalOfString (s : String) : Option PyDecimal :=
  let cs := ((pyStrip s).data.filter (fun c => c ≠ '_')).map Char.toLower
  match cs with
  | '+' :: rest => parseNumericValue rest
  | '-' :: rest => (parseNumericValue rest).map PyDecimal.neg
  | rest => parseNumericValue rest

/-- The Python comparison `d < 0`: `none` when it raises `InvalidOperation`
(NaN operand), otherwise the boolean outcome. -/
def PyDecimal.ltZero : PyDecimal → Option Bool
  | .fin q => some (decide (q < 0))
  | .posInf => some false
  | .negInf => some true
  | .nan => none

/-- The Python comparison `d == 0` (never raises). -/
def PyDecimal.eqZero : PyDecimal → Bool
  | .fin q => decide (q = 0)
  | _ => false

/-- A `Decimal` value that the comparison `d < 0` reports as not negative:
a finite non-negative rational or `+Infinity`.  (`NaN` is excluded: comparing
it raises.) -/
def PyDecimal.nonNegative : PyDecimal → Prop
  | .fin q => 0 ≤ q
  | .posInf => True
  | .negInf => False
  | .nan => False

instance (d : PyDecimal) : Decidable d.nonNegative := by
  cases d <;> simp [PyDecimal.nonNegative] <;> infer_instance

end Mcryptoex

namespace Mcryptoex

/-! ## SHA-1 and UUIDv5 (Python `uuid.uuid5`)

The validator derives `tx_id = str(uuid.uuid5(uuid.NAMESPACE_URL, name))`.
`uuid5` is SHA-1 over the namespace bytes followed by the UTF-8 name, with
the version/variant bits patched in.  Bytes are naturals `< 256`, 32-bit
words naturals `< 2^32` with explicit `% 2^32`. -/

/-- 32-bit left rotation. -/
def rotl32 (n x : ℕ) : ℕ := ((x <<< n) ||| (x >>> (32 - n))) % 4294967296

/-- Big-endian 8-byte encoding of the 64-bit message bit length. -/
def beBytes8 (n : ℕ) : List ℕ :=
  (List.range 8).map fun i => (n >>> (8 * (7 - i))) % 256

/-- SHA-1 padding: `0x80`, zeros to 56 mod 64, then the bit length. -/
def sha1Pad (msg : List ℕ) : List ℕ :=
  msg ++ [128] ++ List.replicate ((119 - msg.length % 64) % 64) 0 ++
    beBytes8 (8 * msg.length)

/-- The 64-byte chunks of the padded message. -/
def sha1Chunks (bs : List ℕ) : List (List ℕ) :=
  (List.range (bs.length / 64)).map fun i => (bs.drop (64 * i)).take 64

/-- Big-endian 32-bit words of one 64-byte chunk. -/
def chunkWords (chunk : List ℕ) : Array ℕ :=
  ((List.range 16).map fun i =>
    chunk.getD (4 * i) 0 * 16777216 + chunk.getD (4 * i + 1) 0 * 65536 +
      chunk.getD (4 * i + 2) 0 * 256 + chunk.getD (4 * i + 3) 0).toArray

/-- Extend 16 words to 80 words. -/
def sha1Extend (ws : Array ℕ) : Array ℕ :=
  (List.range 64).foldl
    (fun ws j =>
      ws.push (rotl32 1 (ws.getD (j + 13) 0 ^^^ ws.getD (j + 8) 0 ^^^
        ws.getD (j + 2) 0 ^^^ ws.getD j 0)))
    ws

/-- One SHA-1 round on the five-word state. -/
def sha1Round (w i : ℕ) (st : ℕ × ℕ × ℕ × ℕ × ℕ) : ℕ × ℕ × ℕ × ℕ × ℕ :=
  let (a, b, c, d, e) := st
  let fk : ℕ × ℕ :=
    if i < 20 then ((b &&& c) ||| ((b ^^^ 4294967295) &&& d), 1518500249)
    else if i < 40 then (b ^^^ c ^^^ d, 1859775393)
    else if i < 60 then ((b &&& c) ||| (b &&& d) ||| (c &&& d), 2400959708)
    else (b ^^^ c ^^^ d, 3395469782)
  ((rotl32 5 a + fk.1 + e + fk.2 + w) % 4294967296, a, rotl32 30 b, c, d)

/-- Process one 64-byte chunk into the running state. -/
def sha1ProcessChunk (h : ℕ × ℕ × ℕ × ℕ × ℕ) (chunk : List ℕ) :
    ℕ × ℕ × ℕ × ℕ × ℕ :=
  let ws := sha1Extend (chunkWords chunk)
  let (h0, h1, h2, h3, h4) := h
  let st := (List.range 80).foldl (fun st i => sha1Round (ws.getD i 0) i st)
    (h0, h1, h2, h3, h4)
  let (a, b, c, d, e) := st
  ((h0 + a) % 4294967296, (h1 + b) % 4294967296, (h2 + c) % 4294967296,
    (h3 + d) % 4294967296, (h4 + e) % 4294967296)

/-- SHA-1 digest (20 bytes) of a byte list. -/
def sha1 (msg : List ℕ) : List ℕ :=
  let h := (sha1Chunks (sha1Pad msg)).foldl sha1ProcessChunk
    (1732584193, 4023233417, 2562383102, 271733878, 3285377520)
  let (h0, h1, h2, h3, h4) := h
  [h0, h1, h2, h3, h4].flatMap fun w =>
    (List.range 4).map fun i => (w >>> (8 * (3 - i))) % 256

/-- Lowercase hex digit. -/
def hexDigit (n : ℕ) : Char :=
  if n < 10 then Char.ofNat (48 + n) else Char.ofNat (87 + n)

/-- Two lowercase hex characters of a byte. -/
def byteHex (b : ℕ) : List Char := [hexDigit (b / 16), hexDigit (b % 16)]

/-- The bytes of `uuid.NAMESPACE_URL` (`6ba7b811-9dad-11d1-80b4-00c04fd430c8`). -/
def NAMESPACE_URL_BYTES : List ℕ :=
  [107, 167, 184, 17, 157, 173, 17, 209, 128, 180, 0, 192, 79, 212, 48, 200]

/-- `str(uuid.uuid5(ns, name))`: SHA-1 of namespace bytes plus UTF-8 name,
version nibble set to 5, variant bits to `10`, hyphenated lowercase hex. -/
def pyUuid5 (ns : List ℕ) (name : String) : String :=
  let digest := (sha1 (ns ++ name.toUTF8.toList.map UInt8.toNat)).take 16
  let b6 := digest.getD 6 0 % 16 + 80
  let b8 := digest.getD 8 0 % 64 + 128
  let bytes := digest.take 6 ++ [b6, digest.getD 7 0, b8, digest.getD 9 0] ++
    digest.drop 10
  let hex := bytes.flatMap byteHex
  ⟨hex.take 8 ++ ['-'] ++ (hex.drop 8).take 4 ++ ['-'] ++
    (hex.drop 12).take 4 ++ ['-'] ++ (hex.drop 16).take 4 ++ ['-'] ++
    hex.drop 20⟩

end Mcryptoex

namespace Mcryptoex

/-! ## Validator (`services/validator/main.py`) -/

/-- The `DexTxRaw` proto fields read by the validator.  `occurred_at` is
`none` when the proto field is unset (`HasField` is false). -/
structure DexTxRaw where
  note_id : String
  correlation_id : String
  tx_hash : String
  action : String
  user_address : String
  pool_address : String
  token_in : String
  token_out : String
  chain_id : ℤ
  amount_in : String
  amount_out : String
  fee_usd : String
  gas_used : String
  gas_cost_usd : String
  protocol_revenue_usd : String
  min_out : String
  block_number : ℤ
  occurred_at : Option ℤ
deriving DecidableEq, Repr

/-- The `DexTxValid` proto message built by `_validate`. -/
structure DexTxValid where
  tx_id : String
  note_id : String
  correlation_id : String
  chain_id : ℤ
  tx_hash : String
  action : String
  user_address : String
  pool_address : String
  token_in : String
  token_out : String
  amount_in : String
  amount_out : String
  fee_usd : String
  gas_used : String
  gas_cost_usd : String
  protocol_revenue_usd : String
  block_number : ℤ
  validation_version : String
  min_out : String
  occurred_at : ℤ
deriving DecidableEq, Repr

/-- `ALLOWED_ACTIONS` from `services/validator/main.py` (lines 17-27). -/
def ALLOWED_ACTIONS : List String :=
  ["SWAP", "LIQUIDITY_ADD", "LIQUIDITY_REMOVE", "MUSD_MINT", "MUSD_BURN",
   "PROTOCOL_FEE_ACCRUED", "FEE_TRANSFERRED_TO_TREASURY",
   "TREASURY_CONVERTED_TO_MUSD", "DISTRIBUTION_EXECUTED"]

/-- `_validate_decimal` (lines 165-175).  The un-caught `InvalidOperation`
that Python raises when `parsed < 0` meets a NaN is an error outcome too. -/
def validate_decimal (value field : String) (allow_zero : Bool) :
    Except String Unit :=
  match pyDecimalOfString value with
  | none => .error ("invalid decimal field " ++ field ++ ": " ++ value)
  | some parsed =>
    match parsed.ltZero with
    | none => .error ("InvalidOperation comparing NaN in field " ++ field)
    | some true => .error (field ++ " must be >= 0")
    | some false =>
      if !allow_zero && parsed.eqZero then .error (field ++ " must be > 0")
      else .ok ()

/-- The validator's coercion `str(raw.min_out).strip() or '0'` (line 132). -/
def minOutCoerced (raw : DexTxRaw) : String :=
  if pyStrip raw.min_out = "" then "0" else pyStrip raw.min_out

/-- The checks of `_validate` (lines 104-133), in source order: each Python
`raise` is an early `.error`, each `_validate_decimal` call propagates its
error. -/
def validateChecks (raw : DexTxRaw) : Except String Unit :=
  if pyStrip raw.note_id = "" then .error "missing field: note_id"
  else if pyStrip raw.correlation_id = "" then .error "missing field: correlation_id"
  else if pyStrip raw.tx_hash = "" then .error "missing field: tx_hash"
  else if pyStrip raw.action = "" then .error "missing field: action"
  else if pyStrip raw.user_address = "" then .error "missing field: user_address"
  else if pyStrip raw.pool_address = "" then .error "missing field: pool_address"
  else if pyStrip raw.token_in = "" then .error "missing field: token_in"
  else if pyStrip raw.token_out = "" then .error "missing field: token_out"
  else if raw.chain_id ≤ 0 then .error "chain_id must be > 0"
  else if raw.action ∉ ALLOWED_ACTIONS then .error ("unsupported action: " ++ raw.action)
  else
    validate_decimal raw.amount_in "amount_in" true >>= fun _ =>
    validate_decimal raw.amount_out "amount_out" true >>= fun _ =>
    validate_decimal raw.fee_usd "fee_usd" true >>= fun _ =>
    validate_decimal raw.gas_used "gas_used" true >>= fun _ =>
    validate_decimal raw.gas_cost_usd "gas_cost_usd" true >>= fun _ =>
    validate_decimal raw.protocol_revenue_usd "protocol_revenue_usd" true >>= fun _ =>
    validate_decimal (minOutCoerced raw) "min_out" true >>= fun _ =>
    .ok ()

/-- The `DexTxValid` that `_validate` builds (lines 135-163): derived
`tx_id`, copied fields, coerced `min_out`, `validation_version = "v1"`,
`occurred_at` defaulting to now-UTC. -/
def mkValid (raw : DexTxRaw) (now : ℤ) : DexTxValid :=
  { tx_id := pyUuid5 NAMESPACE_URL_BYTES
      (toString raw.chain_id ++ ":" ++ raw.tx_hash ++ ":" ++ raw.note_id),
    note_id := raw.note_id,
    correlation_id := raw.correlation_id,
    chain_id := raw.chain_id,
    tx_hash := raw.tx_hash,
    action := raw.action,
    user_address := raw.user_address,
    pool_address := raw.pool_address,
    token_in := raw.token_in,
    token_out := raw.token_out,
    amount_in := raw.amount_in,
    amount_out := raw.amount_out,
    fee_usd := raw.fee_usd,
    gas_used := raw.gas_used,
    gas_cost_usd := raw.gas_cost_usd,
    protocol_revenue_usd := raw.protocol_revenue_usd,
    block_number := raw.block_number,
    validation_version := "v1",
    min_out := minOutCoerced raw,
    occurred_at := match raw.occurred_at with | some t => t | none => now }

/-- `_validate` (lines 104-163): run the checks, then return the valid note. -/
def validate (raw : DexTxRaw) (now : ℤ) : Except String DexTxValid :=
  match validateChecks raw with
  | .error e => .error e
  | .ok _ => .ok (mkValid raw now)

end Mcryptoex

namespace Mcryptoex

/-- Splitting a unit-valued `Except` bind that succeeded. -/
lemma except_bind_unit_ok {r : Except String Unit}
    {rest : Unit → Except String Unit} (h : (r >>= rest) = .ok ()) :
    r = .ok () ∧ rest () = .ok () := by
  cases r with
  | error e => simp [Bind.bind, Except.bind] at h
  | ok u => exact ⟨rfl, by simpa [Bind.bind, Except.bind] using h⟩

/-- `_validate_decimal value field allow_zero=True` succeeds exactly when the
string parses as a `Decimal` that compares not-less-than zero (a finite
non-negative rational or `+Infinity`). -/
lemma validate_decimal_ok_iff (value field : String) :
    validate_decimal value field true = .ok () ↔
      ∃ d, pyDecimalOfString value = some d ∧ d.nonNegative := by
  cases hp : pyDecimalOfString value with
  | none => simp [validate_decimal, hp]
  | some d =>
    cases d with
    | fin q =>
      by_cases hq : q < 0
      · simp [validate_decimal, hp, PyDecimal.ltZero, hq,
          PyDecimal.nonNegative, not_le.mpr hq]
      · simp [validate_decimal, hp, PyDecimal.ltZero, hq,
          PyDecimal.nonNegative, not_lt.mp hq]
    | posInf =>
      simp [validate_decimal, hp, PyDecimal.ltZero, PyDecimal.nonNegative]
    | negInf =>
      simp [validate_decimal, hp, PyDecimal.ltZero, PyDecimal.nonNegative]
    | nan =>
      simp [validate_decimal, hp, PyDecimal.ltZero, PyDecimal.nonNegative]

/-- A successful `validateChecks` run implies every `_validate_decimal` call
succeeded. -/
lemma validateChecks_ok_decimals (raw : DexTxRaw)
    (h : validateChecks raw = .ok ()) :
    validate_decimal raw.amount_in "amount_in" true = .ok () ∧
    validate_decimal raw.amount_out "amount_out" true = .ok () ∧
    validate_decimal raw.fee_usd "fee_usd" true = .ok () ∧
    validate_decimal raw.gas_used "gas_used" true = .ok () ∧
    validate_decimal raw.gas_cost_usd "gas_cost_usd" true = .ok () ∧
    validate_decimal raw.protocol_revenue_usd "protocol_revenue_usd" true = .ok () ∧
    validate_decimal (minOutCoerced raw) "min_out" true = .ok () := by
  unfold validateChecks at h
  by_cases c1 : pyStrip raw.note_id = ""
  · rw [if_pos c1] at h; exact absurd h (by simp)
  rw [if_neg c1] at h
  by_cases c2 : pyStrip raw.correlation_id = ""
  · rw [if_pos c2] at h; exact absurd h (by simp)
  rw [if_neg c2] at h
  by_cases c3 : pyStrip raw.tx_hash = ""
  · rw [if_pos c3] at h; exact absurd h (by simp)
  rw [if_neg c3] at h
  by_cases c4 : pyStrip raw.action = ""
  · rw [if_pos c4] at h; exact absurd h (by simp)
  rw [if_neg c4] at h
  by_cases c5 : pyStrip raw.user_address = ""
  · rw [if_pos c5] at h; exact absurd h (by simp)
  rw [if_neg c5] at h
  by_cases c6 : pyStrip raw.pool_address = ""
  · rw [if_pos c6] at h; exact absurd h (by simp)
  rw [if_neg c6] at h
  by_cases c7 : pyStrip raw.token_in = ""
  · rw [if_pos c7] at h; exact absurd h (by simp)
  rw [if_neg c7] at h
  by_cases c8 : pyStrip raw.token_out = ""
  · rw [if_pos c8] at h; exact absurd h (by simp)
  rw [if_neg c8] at h
  by_cases c9 : raw.chain_id ≤ 0
  · rw [if_pos c9] at h; exact absurd h (by simp)
  rw [if_neg c9] at h
  by_cases c10 : raw.action ∉ ALLOWED_ACTIONS
  · rw [if_pos c10] at h; exact absurd h (by simp)
  rw [if_neg c10] at h
  obtain ⟨h1, h⟩ := except_bind_unit_ok h
  obtain ⟨h2, h⟩ := except_bind_unit_ok h
  obtain ⟨h3, h⟩ := except_bind_unit_ok h
  obtain ⟨h4, h⟩ := except_bind_unit_ok h
  obtain ⟨h5, h⟩ := except_bind_unit_ok h
  obtain ⟨h6, h⟩ := except_bind_unit_ok h
  obtain ⟨h7, -⟩ := except_bind_unit_ok h
  exact ⟨h1, h2, h3, h4, h5, h6, h7⟩

/-- A validator run that reports success returns exactly `mkValid raw now`. -/
lemma validate_eq_of_isOk (raw : DexTxRaw) (now : ℤ)
    (h : (validate raw now).isOk = true) :
    validate raw now = .ok (mkValid raw now) ∧ validateChecks raw = .ok () := by
  unfold validate at h ⊢
  cases hc : validateChecks raw with
  | error e => rw [hc] at h; simp [Except.isOk, Except.toBool] at h
  | ok u => cases u; exact ⟨rfl, rfl⟩

end Mcryptoex

namespace Mcryptoex

/-- The string parses as a `Decimal` for which the check `parsed < 0`
evaluates to `False`: a finite non-negative rational or `+Infinity`. -/
def decimalFieldOk (s : String) : Prop :=
  ∃ d, pyDecimalOfString s = some d ∧ d.nonNegative

/-- C7: the validator accepts a raw note only if every decimal field among
`amount_in, amount_out, fee_usd, gas_used, gas_cost_usd,
protocol_revenue_usd, min_out` parses as a non-negative `Decimal`, where an
empty (or whitespace-only) `min_out` — and only `min_out` — is coerced to
`"0"` first.  Contrapositive: a negative or unparseable value in any of
these fields makes validation fail. -/
theorem C7_validator_decimal_fields (raw : DexTxRaw) (now : ℤ)
    (h : (validate raw now).isOk = true) :
    decimalFieldOk raw.amount_in ∧ decimalFieldOk raw.amount_out ∧
    decimalFieldOk raw.fee_usd ∧ decimalFieldOk raw.gas_used ∧
    decimalFieldOk raw.gas_cost_usd ∧
    decimalFieldOk raw.protocol_revenue_usd ∧
    decimalFieldOk (minOutCoerced raw) ∧
    (pyStrip raw.min_out = "" → minOutCoerced raw = "0") ∧
    (pyStrip raw.min_out ≠ "" → minOutCoerced raw = pyStrip raw.min_out) := by
  obtain ⟨-, hchecks⟩ := validate_eq_of_isOk raw now h
  obtain ⟨h1, h2, h3, h4, h5, h6, h7⟩ := validateChecks_ok_decimals raw hchecks
  exact ⟨(validate_decimal_ok_iff _ _).mp h1, (validate_decimal_ok_iff _ _).mp h2,
    (validate_decimal_ok_iff _ _).mp h3, (validate_decimal_ok_iff _ _).mp h4,
    (validate_decimal_ok_iff _ _).mp h5, (validate_decimal_ok_iff _ _).mp h6,
    (validate_decimal_ok_iff _ _).mp h7,
    fun he => by simp [minOutCoerced, he],
    fun he => by simp [minOutCoerced, he]⟩

/-- A concrete raw note that passes validation (empty `min_out`). -/
def sampleRaw : DexTxRaw :=
  { note_id := "note-1", correlation_id := "corr-1", tx_hash := "0xabc",
    action := "SWAP", user_address := "0xUser", pool_address := "0xPool",
    token_in := "mUSD", token_out := "WETH",
    chain_id := 1, amount_in := "100", amount_out := "0.03",
    fee_usd := "0.30", gas_used := "21000", gas_cost_usd := "0.22",
    protocol_revenue_usd := "0.12", min_out := "", block_number := 7,
    occurred_at := some 1700000000 }

/-- A raw note agreeing with `sampleRaw` on `(chain_id, tx_hash, note_id)`
but differing elsewhere. -/
def sampleRaw2 : DexTxRaw :=
  { sampleRaw with
    user_address := "0xOther", correlation_id := "corr-9",
    amount_in := "5", min_out := " 1.5 ", occurred_at := none }

unseal Rat.mul Rat.inv Rat.add Rat.sub in
/-- Witness for `C7_validator_decimal_fields` at `sampleRaw`. -/
theorem C7_validator_decimal_fields_witness :
    decimalFieldOk sampleRaw.amount_in ∧ decimalFieldOk sampleRaw.amount_out ∧
    decimalFieldOk sampleRaw.fee_usd ∧ decimalFieldOk sampleRaw.gas_used ∧
    decimalFieldOk sampleRaw.gas_cost_usd ∧
    decimalFieldOk sampleRaw.protocol_revenue_usd ∧
    decimalFieldOk (minOutCoerced sampleRaw) ∧
    (pyStrip sampleRaw.min_out = "" → minOutCoerced sampleRaw = "0") ∧
    (pyStrip sampleRaw.min_out ≠ "" →
      minOutCoerced sampleRaw = pyStrip sampleRaw.min_out) :=
  C7_validator_decimal_fields sampleRaw 0 (by decide)

/-- C3: the derived `tx_id` equals
`UUIDv5(NAMESPACE_URL, "{chain_id}:{tx_hash}:{note_id}")`, hence is a pure
function of `(chain_id, tx_hash, note_id)`: two raw notes that validate and
agree on those three fields receive the same `tx_id`. -/
theorem C3_tx_id_uuid5_pure (raw1 raw2 : DexTxRaw) (now1 now2 : ℤ)
    (h1 : (validate raw1 now1).isOk = true)
    (h2 : (validate raw2 now2).isOk = true)
    (hc : raw1.chain_id = raw2.chain_id)
    (ht : raw1.tx_hash = raw2.tx_hash)
    (hn : raw1.note_id = raw2.note_id) :
    (validate raw1 now1).map DexTxValid.tx_id =
      .ok (pyUuid5 NAMESPACE_URL_BYTES
        (toString raw1.chain_id ++ ":" ++ raw1.tx_hash ++ ":" ++ raw1.note_id)) ∧
    (validate raw1 now1).map DexTxValid.tx_id =
      (validate raw2 now2).map DexTxValid.tx_id := by
  obtain ⟨he1, -⟩ := validate_eq_of_isOk raw1 now1 h1
  obtain ⟨he2, -⟩ := validate_eq_of_isOk raw2 now2 h2
  rw [he1, he2]
  exact ⟨rfl, by simp [Except.map, mkValid, hc, ht, hn]⟩

unseal Rat.mul Rat.inv Rat.add Rat.sub in
/-- Witness for `C3_tx_id_uuid5_pure` at `sampleRaw`/`sampleRaw2`. -/
theorem C3_tx_id_uuid5_pure_witness :
    (validate sampleRaw 0).map DexTxValid.tx_id =
      .ok (pyUuid5 NAMESPACE_URL_BYTES
        (toString sampleRaw.chain_id ++ ":" ++ sampleRaw.tx_hash ++ ":" ++
          sampleRaw.note_id)) ∧
    (validate sampleRaw 0).map DexTxValid.tx_id =
      (validate sampleRaw2 42).map DexTxValid.tx_id :=
  C3_tx_id_uuid5_pure sampleRaw sampleRaw2 0 42 (by decide) (by decide) rfl rfl rfl

end Mcryptoex

namespace Mcryptoex

/-! ## Ledger writer persistence and side effects (`run` / `_persist`)

The transactional store is modelled as the list of persisted transaction
records; the `ON CONFLICT (note_id) DO NOTHING RETURNING tx_id` insert (the
`dex_transactions` primary key / unique `note_id` constraint lives in the SQL
schema) reports a new row exactly when no record with the same `note_id`
exists.  Downstream work is recorded as a list of effect descriptors. -/

/-- `_dec` from `services/ledger-writer/main.py` (lines 55-59): `Decimal`
conversion falling back to `Decimal('0')` on `InvalidOperation`/`TypeError`. -/
def dec (value : String) : PyDecimal :=
  match pyDecimalOfString value with
  | some d => d
  | none => .fin 0

/-- The finite-rational image of `_dec`, used where the embedded
`_build_ledger_rows` needs `ℚ` amounts (non-finite `Decimal` values are
outside the `ℚ` model; unparseable strings map to 0 as in `_dec`). -/
def decRat (value : String) : ℚ :=
  match pyDecimalOfString value with
  | some (.fin q) => q
  | _ => 0

/-- A row of `dex_transactions` as inserted by `_persist` (amount columns
only, beside the keys; the other copied string columns are omitted from the
store model). -/
structure TxRecord where
  tx_id : String
  note_id : String
  amount_in : PyDecimal
  amount_out : PyDecimal
  fee_usd : PyDecimal
  gas_used : PyDecimal
  gas_cost_usd : PyDecimal
  protocol_revenue_usd : PyDecimal
  min_out : PyDecimal
deriving DecidableEq, Repr

/-- Downstream side effects of processing one valid note. -/
inductive Effect where
  | insertLedgerEntries (tx_id : String) (rows : List LedgerRow)
  | insertOutbox (tx_id event_type : String)
  | publishLedgerBatch (note_id : String) (rows : List LedgerRow)
  | publishOutbox (note_id : String)
  | insertOlap (note_id : String) (amount_in amount_out fee_usd gas_used
      gas_cost_usd protocol_revenue_usd min_out : PyDecimal)
deriving DecidableEq, Repr

/-- The `dex_transactions` row `_persist` builds from a valid note. -/
def txRecordOf (v : DexTxValid) : TxRecord :=
  { tx_id := v.tx_id, note_id := v.note_id,
    amount_in := dec v.amount_in, amount_out := dec v.amount_out,
    fee_usd := dec v.fee_usd, gas_used := dec v.gas_used,
    gas_cost_usd := dec v.gas_cost_usd,
    protocol_revenue_usd := dec v.protocol_revenue_usd,
    min_out := dec v.min_out }

/-- The ledger rows `_persist` derives via `_build_ledger_rows` (amounts
through `_dec`). -/
def ledgerRowsOf (v : DexTxValid) : List LedgerRow :=
  build_ledger_rows v.tx_id v.note_id v.chain_id v.tx_hash v.action
    v.user_address v.pool_address v.token_in v.token_out
    (decRat v.amount_in) (decRat v.amount_out) (decRat v.fee_usd)
    (decRat v.gas_cost_usd) (decRat v.protocol_revenue_usd) v.occurred_at

/-- The `INSERT ... ON CONFLICT (note_id) DO NOTHING RETURNING tx_id` of
`_persist` (lines 167-223): insert the record unless a row with the same
`note_id` exists; the boolean is `row is not None` (line 223). -/
def insertTransaction (db : List TxRecord) (t : TxRecord) :
    List TxRecord × Bool :=
  if db.any (fun r => r.note_id == t.note_id) then (db, false)
  else (db ++ [t], true)

/-- `_persist` (lines 127-284): build rows and the outbox payload, run the
guarded transaction insert, and — only when it returned a row — insert the
ledger entries (when non-empty) and the outbox row, all in one DB
transaction. -/
def persist (db : List TxRecord) (v : DexTxValid) :
    (List TxRecord × Bool × List LedgerRow × List Effect) :=
  let ledger_rows := ledgerRowsOf v
  let (db2, inserted) := insertTransaction db (txRecordOf v)
  let ledgerEff :=
    if inserted ∧ ledger_rows ≠ [] then
      [Effect.insertLedgerEntries v.tx_id ledger_rows] else []
  let outboxEff :=
    if inserted then [Effect.insertOutbox v.tx_id "dex.note.ingested"] else []
  (db2, inserted, ledger_rows, ledgerEff ++ outboxEff)

/-- One iteration of `run` (lines 112-123) for a decoded valid note:
`_persist`, then — only if `inserted` — `_publish_ledger_batch`,
`_publish_outbox`, `_write_clickhouse`. -/
def processValidNote (db : List TxRecord) (v : DexTxValid) :
    List TxRecord × List Effect :=
  let (db2, inserted, rows, effs) := persist db v
  let post :=
    if inserted then
      [Effect.publishLedgerBatch v.note_id rows,
       Effect.publishOutbox v.note_id,
       Effect.insertOlap v.note_id (dec v.amount_in) (dec v.amount_out)
         (dec v.fee_usd) (dec v.gas_used) (dec v.gas_cost_usd)
         (dec v.protocol_revenue_usd) (dec v.min_out)]
    else []
  (db2, effs ++ post)

end Mcryptoex

namespace Mcryptoex

/-- C2: when the `note_id` is already persisted, the ON-CONFLICT transaction
insert reports no row and the ledger writer performs none of the downstream
side effects — no ledger-entry rows, no outbox row, no ledger-batch or
outbox publish, no OLAP insert — and the store is unchanged.  When the
`note_id` is new, the store gains the row and exactly the downstream steps
run (the ledger-entry insert only when the derived rows are non-empty). -/
theorem C2_duplicate_note_no_side_effects (db : List TxRecord)
    (v : DexTxValid) :
    (db.any (fun r => r.note_id == v.note_id) = true →
      (processValidNote db v).2 = [] ∧ (processValidNote db v).1 = db) ∧
    (db.any (fun r => r.note_id == v.note_id) = false →
      (processValidNote db v).1 = db ++ [txRecordOf v] ∧
      (processValidNote db v).2 =
        (if ledgerRowsOf v ≠ [] then
          [Effect.insertLedgerEntries v.tx_id (ledgerRowsOf v)] else []) ++
        [Effect.insertOutbox v.tx_id "dex.note.ingested",
         Effect.publishLedgerBatch v.note_id (ledgerRowsOf v),
         Effect.publishOutbox v.note_id,
         Effect.insertOlap v.note_id (dec v.amount_in) (dec v.amount_out)
           (dec v.fee_usd) (dec v.gas_used) (dec v.gas_cost_usd)
           (dec v.protocol_revenue_usd) (dec v.min_out)]) := by
  constructor <;> intro h <;>
    simp [processValidNote, persist, insertTransaction, txRecordOf, h]

/-- C9: `_dec` is total — a parseable string maps to its `Decimal` value and
anything else to `Decimal('0')` — so a valid note carrying an unparseable
amount field is persisted with that amount stored as 0 rather than failing:
the transaction row is still inserted and downstream side effects still
run. -/
theorem C9_dec_total_unparseable_as_zero (s : String) (db : List TxRecord)
    (v : DexTxValid) :
    (∀ d, pyDecimalOfString s = some d → dec s = d) ∧
    (pyDecimalOfString s = none → dec s = .fin 0) ∧
    (pyDecimalOfString v.amount_in = none →
      db.any (fun r => r.note_id == v.note_id) = false →
      (processValidNote db v).1 = db ++ [txRecordOf v] ∧
      (txRecordOf v).amount_in = .fin 0 ∧
      (processValidNote db v).2 ≠ []) := by
  refine ⟨?_, ?_, ?_⟩
  · intro d hd; simp [dec, hd]
  · intro hn; simp [dec, hn]
  · intro hn hnew
    refine ⟨?_, ?_, ?_⟩
    · simp [processValidNote, persist, insertTransaction, txRecordOf, hnew]
    · simp [txRecordOf, dec, hn]
    · simp [processValidNote, persist, insertTransaction, txRecordOf, hnew]

end Mcryptoex

namespace Mcryptoex

/-! ## Chain registry loader (`apps/api/chain_registry.py`)

`json.loads` is modelled as an oracle `String → Option Json` (`none` =
`JSONDecodeError`); the filesystem as `Option String` (`none` = missing
path).  `load_chain_registry` returns a deep copy, which in a value
semantics is the identity. -/

/-- JSON values. -/
inductive Json where
  | null
  | bool (b : Bool)
  | num (q : ℚ)
  | str (s : String)
  | arr (xs : List Json)
  | obj (kvs : List (String × Json))
deriving Repr

/-- `payload.get(key)` on a JSON object. -/
def jsonGet (j : Json) (key : String) : Option Json :=
  match j with
  | .obj kvs => (kvs.find? (fun kv => kv.1 == key)).map (fun kv => kv.2)
  | _ => none

/-- `payload[key] = v` on a JSON object (replace or append). -/
def jsonSet (j : Json) (key : String) (v : Json) : Json :=
  match j with
  | .obj kvs =>
      if kvs.any (fun kv => kv.1 == key) then
        .obj (kvs.map (fun kv => if kv.1 == key then (key, v) else kv))
      else .obj (kvs ++ [(key, v)])
  | other => other

/-- Whether a JSON value is an object (`isinstance(payload, dict)`). -/
def Json.isObj : Json → Bool
  | .obj _ => true
  | _ => false

/-- Whether a JSON value is an array (`isinstance(..., list)`). -/
def Json.isArr : Json → Bool
  | .arr _ => true
  | _ => false

/-- `{'version': 0, 'generated_at': None, 'chains': []}`. -/
def emptySnapshot : Json :=
  .obj [("version", .num 0), ("generated_at", .null), ("chains", .arr [])]

/-- `_load_chain_registry_cached` (lines 36-51): empty snapshot when the
path does not exist, when `json.loads` raises, or when the payload is not a
dict; otherwise the payload with a non-list `chains` replaced by `[]`. -/
def load_chain_registry_cached (file : Option String)
    (jsonLoads : String → Option Json) : Json :=
  match file with
  | none => emptySnapshot
  | some text =>
    match jsonLoads text with
    | none => emptySnapshot
    | some payload =>
      if payload.isObj then
        if (jsonGet payload "chains").any Json.isArr then payload
        else jsonSet payload "chains" (.arr [])
      else emptySnapshot

/-- `load_chain_registry` (lines 54-56): a defensive deep copy of the cached
snapshot — the identity on the value. -/
def load_chain_registry (file : Option String)
    (jsonLoads : String → Option Json) : Json :=
  load_chain_registry_cached file jsonLoads

end Mcryptoex

namespace Mcryptoex

/-- C8: whenever the snapshot path is missing, or its contents fail JSON
parsing, or parse to a non-object, `load_chain_registry` returns the empty
snapshot `{version: 0, generated_at: null, chains: []}`; being a total
function, it never raises. -/
theorem C8_load_chain_registry_empty_snapshot (file : Option String)
    (jsonLoads : String → Option Json) :
    (file = none → load_chain_registry file jsonLoads = emptySnapshot) ∧
    (∀ text, file = some text → jsonLoads text = none →
      load_chain_registry file jsonLoads = emptySnapshot) ∧
    (∀ text p, file = some text → jsonLoads text = some p →
      p.isObj = false →
      load_chain_registry file jsonLoads = emptySnapshot) := by
  refine ⟨?_, ?_, ?_⟩
  · intro h; simp [load_chain_registry, load_chain_registry_cached, h]
  · intro text hf hj
    simp [load_chain_registry, load_chain_registry_cached, hf, hj]
  · intro text p hf hj hobj
    simp [load_chain_registry, load_chain_registry_cached, hf, hj, hobj]

end Mcryptoex

namespace Mcryptoex

/-! ## Quote engine state and routing (`apps/api/quote_engine.py`) -/

/-- `PairState` (lines 19-25). -/
structure PairState where
  pair_address : String
  token0_symbol : String
  token1_symbol : String
  reserve0 : ℚ
  reserve1 : ℚ
deriving DecidableEq, Repr

/-- `ChainLiquidityState` (lines 28-36); the `symbols` set and the two dicts
are lists (first hit wins on lookup). -/
structure ChainLiquidityState where
  chain_id : ℤ
  symbols : List String
  canonical_symbols : List (String × String)
  token_decimals : List (String × ℤ)
  pairs : List PairState
  swap_fee_bps : ℤ
  protocol_fee_bps : ℤ
deriving DecidableEq, Repr

/-- Python `dict.get(key, default)` over an association list. -/
def pyDictGet {α : Type} (kvs : List (String × α)) (key : String)
    (dflt : α) : α :=
  ((kvs.find? (fun kv => kv.1 == key)).map (fun kv => kv.2)).getD dflt

/-- `_normalize_pool_address` (lines 39-40). -/
def normalize_pool_address (value : String) : String :=
  pyToLower (pyStrip value)

/-- `_is_evm_pool_address` (lines 43-44): full match of `0x[a-f0-9]{40}`
against the normalized address. -/
def is_evm_pool_address (value : String) : Bool :=
  let s := normalize_pool_address value
  s.length == 42 && s.data.take 2 == ['0', 'x'] &&
    (s.data.drop 2).all (fun c => c.isDigit || ('a' ≤ c && c ≤ 'f'))

/-- Code-point lexicographic strict order on character lists (Python
`str < str`). -/
def charListLt : List Char → List Char → Bool
  | [], [] => false
  | [], _ :: _ => true
  | _ :: _, [] => false
  | a :: as, b :: bs =>
      if a < b then true else if b < a then false else charListLt as bs

/-- Python `a < b` on strings. -/
def pyStrLt (a b : String) : Bool := charListLt a.data b.data

/-- Python `a <= b` on strings. -/
def pyStrLe (a b : String) : Bool := pyStrLt a b || a == b

/-- `_pair_symbol_key` (lines 79-84): UPPER-cased, ordered symbol pair. -/
def pair_symbol_key (token0_symbol token1_symbol : String) :
    String × String :=
  let token0 := pyToUpper (pyStrip token0_symbol)
  let token1 := pyToUpper (pyStrip token1_symbol)
  if pyStrLe token0 token1 then (token0, token1)
  else (token1, token0)

/-- `_pair_liquidity_score` (lines 87-90). -/
def pair_liquidity_score (pair : PairState) : ℚ :=
  if pair.reserve0 ≤ 0 ∨ pair.reserve1 ≤ 0 then 0
  else pair.reserve0 * pair.reserve1

/-- `_legacy_amount` (lines 294-303): hardcoded static-fallback mid rates. -/
def legacy_amount (token_in token_out : String) (amount_in : ℚ) : ℚ :=
  let rate : ℚ :=
    if token_in ≠ token_out then
      if pyToUpper token_in = "MUSD" then
        if pyToUpper token_out = "WETH" ∨ pyToUpper token_out = "WSOL" then
          (3 : ℚ) / 10000
        else (2 : ℚ) / 100000
      else if pyToUpper token_out = "MUSD" then
        if pyToUpper token_in = "WETH" ∨ pyToUpper token_in = "WSOL" then 3300
        else 52000
      else (6 : ℚ) / 100
    else 1
  amount_in * rate

/-- `_route_amount` (lines 258-291): fold over the chain's pairs keeping the
best constant-product output and its `min(reserve_in, reserve_out)` depth;
`none` when no pair yields positive output. -/
def route_amount (state : ChainLiquidityState)
    (token_in token_out : String) (amount_in : ℚ) : Option (ℚ × ℚ) :=
  let token_in_upper := pyToUpper token_in
  let token_out_upper := pyToUpper token_out
  let best := state.pairs.foldl
    (fun (acc : ℚ × ℚ) pair =>
      let pair_token0_upper := pyToUpper pair.token0_symbol
      let pair_token1_upper := pyToUpper pair.token1_symbol
      let sameSet :=
        (pair_token0_upper = token_in_upper ∨ pair_token0_upper = token_out_upper) ∧
        (pair_token1_upper = token_in_upper ∨ pair_token1_upper = token_out_upper) ∧
        (token_in_upper = pair_token0_upper ∨ token_in_upper = pair_token1_upper) ∧
        (token_out_upper = pair_token0_upper ∨ token_out_upper = pair_token1_upper)
      if ¬ sameSet then acc
      else
        let rio : ℚ × ℚ :=
          if token_in_upper = pair_token0_upper then (pair.reserve0, pair.reserve1)
          else (pair.reserve1, pair.reserve0)
        let out := amountOutConstantProduct amount_in rio.1 rio.2 state.swap_fee_bps
        if out > acc.1 then (out, min rio.1 rio.2) else acc)
    (0, 0)
  if best.1 ≤ 0 then none else some best

/-- Truncation toward zero (Python `Decimal.quantize(..., ROUND_DOWN)` on the
scaled value). -/
def ratTruncate (q : ℚ) : ℤ := q.num.tdiv (q.den : ℤ)

/-- Decimal rendering of `scaled / 10^scale` with exactly `scale` fractional
digits (`format(quantized, 'f')`). -/
def formatScaled (scaled : ℤ) (scale : ℕ) : String :=
  let sign := if scaled < 0 then "-" else ""
  let a := scaled.natAbs
  if scale = 0 then sign ++ toString (a : ℕ)
  else
    let ip := a / 10 ^ scale
    let fpDigits := toString (a % 10 ^ scale)
    let fp := String.mk (List.replicate (scale - fpDigits.length) '0') ++ fpDigits
    sign ++ toString ip ++ "." ++ fp

/-- Remove trailing occurrences of a character (`str.rstrip(c)`). -/
def rstripChar (s : String) (c : Char) : String :=
  ⟨(s.data.reverse.dropWhile (fun x => x = c)).reverse⟩

/-- `_format_amount_for_decimals` (lines 306-315): quantize `ROUND_DOWN` at
the token's decimals (integer quantize when `decimals ≤ 0`), render plainly,
strip trailing zeros then a trailing dot, defaulting to `"0"`. -/
def format_amount_for_decimals (value : ℚ) (decimals : ℤ) : String :=
  let text :=
    if decimals ≤ 0 then formatScaled (ratTruncate value) 0
    else formatScaled (ratTruncate (value * ((10 ^ decimals.toNat : ℕ) : ℚ)))
      decimals.toNat
  let text :=
    if text.data.contains '.' then rstripChar (rstripChar text '0') '.'
    else text
  if text = "" then "0" else text

end Mcryptoex

namespace Mcryptoex

/-- The intermediate quantities `build_quote` (lines 318-428) computes before
formatting the response dict. -/
structure QuoteCore where
  canonical_in : String
  canonical_out : String
  amount_in : ℚ
  expected_out : ℚ
  min_out : ℚ
  route : List String
  route_depth : ℚ
  liquidity_source : String
  token_in_decimals : ℤ
  token_out_decimals : ℤ
  swap_fee_bps : ℤ
  protocol_fee_bps : ℤ
  lp_fee_bps : ℤ
  protocol_fee_amount_in : ℚ
deriving DecidableEq, Repr

/-- The response dict of `build_quote` (lines 412-428); decimal fields are
the formatted strings (`route_depth`, rendered by plain `str()` in the
source, is kept as the exact rational). -/
structure QuoteResult where
  chain_id : ℤ
  token_in : String
  token_out : String
  amount_in : String
  expected_out : String
  min_out : String
  slippage_bps : ℤ
  route : List String
  route_depth : ℚ
  liquidity_source : String
  total_fee_bps : ℤ
  protocol_fee_bps : ℤ
  lp_fee_bps : ℤ
  protocol_fee_amount_in : String
  engine : String
deriving DecidableEq, Repr

/-- The tail of `build_quote` (lines 406-410) shared by both liquidity
sources: `min_out`, protocol-fee amount, lp fee and decimals lookups. -/
def mkQuoteCore (state : ChainLiquidityState)
    (token_in_upper token_out_upper canonical_in canonical_out : String)
    (amount_in : ℚ) (slippage_bps : ℤ)
    (resolved : ℚ × List String × ℚ × String) : QuoteCore :=
  { canonical_in := canonical_in, canonical_out := canonical_out,
    amount_in := amount_in,
    expected_out := resolved.1,
    min_out := resolved.1 * (((10000 - slippage_bps : ℤ) : ℚ) / 10000),
    route := resolved.2.1,
    route_depth := resolved.2.2.1,
    liquidity_source := resolved.2.2.2,
    token_in_decimals := pyDictGet state.token_decimals token_in_upper 18,
    token_out_decimals := pyDictGet state.token_decimals token_out_upper 18,
    swap_fee_bps := state.swap_fee_bps,
    protocol_fee_bps := state.protocol_fee_bps,
    lp_fee_bps := max 0 (state.swap_fee_bps - state.protocol_fee_bps),
    protocol_fee_amount_in :=
      amount_in * ((state.protocol_fee_bps : ℚ)) / 10000 }

/-- Lines 389-404 of `build_quote`: when no route yields positive output,
either fail (non-local chain without the static-fallback override) or fall
back to the legacy static rates; otherwise keep the best route. -/
def resolve_expected (allow_static_fallback_global : Bool) (chain_id : ℤ)
    (token_in_upper token_out_upper canonical_in canonical_out
      musd_symbol : String) (amount_in : ℚ) (best : ℚ × List String × ℚ) :
    Except (ℤ × String) (ℚ × List String × ℚ × String) :=
  if best.1 ≤ 0 then
    if ¬ (allow_static_fallback_global = true ∨ chain_id = 31337) then
      .error (422, "no on-chain liquidity route for " ++ canonical_in ++
        "->" ++ canonical_out ++ " on chain_id=" ++ toString chain_id ++
        ". deploy router/factory + bootstrap pool liquidity for this pair first")
    else
      .ok (legacy_amount canonical_in canonical_out amount_in,
        (if token_in_upper = "MUSD" ∨ token_out_upper = "MUSD" then
          [canonical_in, canonical_out]
        else [canonical_in, musd_symbol, canonical_out]),
        best.2.2, "static-fallback")
  else .ok (best.1, best.2.1, best.2.2, "onchain-cache")

/-- `build_quote` (lines 318-410) up to the response dict: validation in
source order, cache lookup (the module-level `_cache.get_chain` becomes the
`lookupChain` argument, `_allow_static_fallback_global` the boolean),
routing, the mUSD two-hop, the static fallback, and the derived outputs. -/
def build_quote_core (lookupChain : ℤ → Option ChainLiquidityState)
    (allow_static_fallback_global : Bool) (chain_id : ℤ)
    (token_in token_out : String) (amount_in : ℚ) (slippage_bps : ℤ) :
    Except (ℤ × String) QuoteCore :=
  let token_in_clean := pyStrip token_in
  let token_out_clean := pyStrip token_out
  if amount_in ≤ 0 then .error (422, "amount_in must be greater than zero")
  else if pyToUpper token_in_clean = pyToUpper token_out_clean then
    .error (422, "token_in and token_out cannot be the same")
  else
    match lookupChain chain_id with
    | none => .error (404, "chain_id=" ++ toString chain_id ++ " is not configured")
    | some state =>
      let token_in_upper := pyToUpper token_in_clean
      let token_out_upper := pyToUpper token_out_clean
      if ¬ state.symbols.contains token_in_upper then
        .error (422, "token_in=" ++ token_in_clean ++
          " is not registered for chain_id=" ++ toString chain_id)
      else if ¬ state.symbols.contains token_out_upper then
        .error (422, "token_out=" ++ token_out_clean ++
          " is not registered for chain_id=" ++ toString chain_id)
      else
        let canonical_in := pyDictGet state.canonical_symbols token_in_upper token_in_clean
        let canonical_out := pyDictGet state.canonical_symbols token_out_upper token_out_clean
        let direct := route_amount state canonical_in canonical_out amount_in
        let musd_symbol := pyDictGet state.canonical_symbols "MUSD" "mUSD"
        let via_musd : Option (ℚ × ℚ) :=
          if token_in_upper ≠ "MUSD" ∧ token_out_upper ≠ "MUSD" then
            match route_amount state canonical_in musd_symbol amount_in with
            | none => none
            | some first_leg =>
              match route_amount state musd_symbol canonical_out first_leg.1 with
              | none => none
              | some second_leg => some (second_leg.1, min first_leg.2 second_leg.2)
          else none
        let base : ℚ × List String × ℚ :=
          match direct with
          | some d => (d.1, [canonical_in, canonical_out], d.2)
          | none => (0, [], 0)
        let best : ℚ × List String × ℚ :=
          match via_musd with
          | some v =>
            if v.1 > base.1 then (v.1, [canonical_in, musd_symbol, canonical_out], v.2)
            else base
          | none => base
        match resolve_expected allow_static_fallback_global chain_id
          token_in_upper token_out_upper canonical_in canonical_out
          musd_symbol amount_in best with
        | .error e => .error e
        | .ok r =>
          .ok (mkQuoteCore state token_in_upper token_out_upper canonical_in
            canonical_out amount_in slippage_bps r)

/-- The response dict built at lines 412-428 from the core quantities. -/
def render_quote (chain_id slippage_bps : ℤ) (c : QuoteCore) : QuoteResult :=
  { chain_id := chain_id,
    token_in := c.canonical_in, token_out := c.canonical_out,
    amount_in := format_amount_for_decimals c.amount_in c.token_in_decimals,
    expected_out := format_amount_for_decimals c.expected_out c.token_out_decimals,
    min_out := format_amount_for_decimals c.min_out c.token_out_decimals,
    slippage_bps := slippage_bps,
    route := c.route, route_depth := c.route_depth,
    liquidity_source := c.liquidity_source,
    total_fee_bps := c.swap_fee_bps, protocol_fee_bps := c.protocol_fee_bps,
    lp_fee_bps := c.lp_fee_bps,
    protocol_fee_amount_in :=
      format_amount_for_decimals c.protocol_fee_amount_in c.token_in_decimals,
    engine := "harmony-engine-v2" }

/-- `build_quote` (lines 318-428): the core computation followed by the
response formatting. -/
def build_quote (lookupChain : ℤ → Option ChainLiquidityState)
    (allow_static_fallback_global : Bool) (chain_id : ℤ)
    (token_in token_out : String) (amount_in : ℚ) (slippage_bps : ℤ) :
    Except (ℤ × String) QuoteResult :=
  (build_quote_core lookupChain allow_static_fallback_global chain_id
    token_in token_out amount_in slippage_bps).map
    (render_quote chain_id slippage_bps)

end Mcryptoex

namespace Mcryptoex

/-- C10: `build_quote` validates `amount_in > 0` and
`token_in ≠ token_out` (case-insensitively, after trimming) before the chain
lookup: with `amount_in ≤ 0` it returns the 422 amount error for every
`lookupChain` (in particular when the chain is unknown); with positive
amount and equal tokens it returns the 422 same-token error; and a 404 can
only be returned for requests that pass both checks. -/
theorem C10_build_quote_validation_order
    (lookupChain : ℤ → Option ChainLiquidityState) (allow : Bool)
    (chain_id : ℤ) (token_in token_out : String) (amount_in : ℚ)
    (slippage_bps : ℤ) :
    (amount_in ≤ 0 →
      build_quote lookupChain allow chain_id token_in token_out amount_in
        slippage_bps = .error (422, "amount_in must be greater than zero")) ∧
    (0 < amount_in →
      pyToUpper (pyStrip token_in) = pyToUpper (pyStrip token_out) →
      build_quote lookupChain allow chain_id token_in token_out amount_in
        slippage_bps = .error (422, "token_in and token_out cannot be the same")) ∧
    (∀ msg, build_quote lookupChain allow chain_id token_in token_out
        amount_in slippage_bps = .error (404, msg) →
      0 < amount_in ∧
      pyToUpper (pyStrip token_in) ≠ pyToUpper (pyStrip token_out)) := by
  refine ⟨?_, ?_, ?_⟩
  · intro h
    simp [build_quote, build_quote_core, h, Except.map]
  · intro h0 heq
    simp [build_quote, build_quote_core, not_le.mpr h0, heq, Except.map]
  · intro msg h
    by_cases h0 : amount_in ≤ 0
    · simp [build_quote, build_quote_core, h0, Except.map] at h
    · by_cases heq : pyToUpper (pyStrip token_in) = pyToUpper (pyStrip token_out)
      · simp [build_quote, build_quote_core, h0, heq, Except.map] at h
      · exact ⟨lt_of_not_le h0, heq⟩

end Mcryptoex

namespace Mcryptoex

/-- The static-fallback rates are positive, so `_legacy_amount` of a positive
amount is positive. -/
lemma legacy_amount_pos (a b : String) (amount : ℚ) (h : 0 < amount) :
    0 < legacy_amount a b amount := by
  unfold legacy_amount
  dsimp only
  split_ifs <;> exact mul_pos h (by norm_num)

/-- A successful `resolve_expected` yields a positive expected output. -/
lemma resolve_expected_ok_pos (allow : Bool) (chain_id : ℤ)
    (tiu tou ci co ms : String) (amount : ℚ) (best : ℚ × List String × ℚ)
    (r : ℚ × List String × ℚ × String) (hamt : 0 < amount)
    (h : resolve_expected allow chain_id tiu tou ci co ms amount best = .ok r) :
    0 < r.1 := by
  unfold resolve_expected at h
  by_cases hb : best.1 ≤ 0
  · rw [if_pos hb] at h
    by_cases hal : ¬ (allow = true ∨ chain_id = 31337)
    · rw [if_pos hal] at h; exact absurd h (by simp)
    · rw [if_neg hal] at h
      cases h
      exact legacy_amount_pos ci co amount hamt
  · rw [if_neg hb] at h
    cases h
    exact lt_of_not_le hb

end Mcryptoex

namespace Mcryptoex

/-- A successful `build_quote_core` returns a record whose `min_out` is
`expected_out × (10000 − slippage_bps)/10000` with positive
`expected_out`. -/
lemma build_quote_core_ok (lookup : ℤ → Option ChainLiquidityState)
    (allow : Bool) (chain_id : ℤ) (tin tout : String) (amount : ℚ) (s : ℤ)
    (c : QuoteCore)
    (h : build_quote_core lookup allow chain_id tin tout amount s = .ok c) :
    c.min_out = c.expected_out * (((10000 - s : ℤ) : ℚ) / 10000) ∧
    0 < c.expected_out := by
  unfold build_quote_core at h
  by_cases h0 : amount ≤ 0
  · rw [if_pos h0] at h; exact absurd h (by simp)
  rw [if_neg h0] at h
  by_cases heq : pyToUpper (pyStrip tin) = pyToUpper (pyStrip tout)
  · rw [if_pos heq] at h; exact absurd h (by simp)
  rw [if_neg heq] at h
  cases hl : lookup chain_id with
  | none => rw [hl] at h; exact absurd h (by simp)
  | some state =>
    rw [hl] at h
    dsimp only at h
    by_cases hs1 : ¬ state.symbols.contains (pyToUpper (pyStrip tin)) = true
    · rw [if_pos hs1] at h; exact absurd h (by simp)
    rw [if_neg hs1] at h
    by_cases hs2 : ¬ state.symbols.contains (pyToUpper (pyStrip tout)) = true
    · rw [if_pos hs2] at h; exact absurd h (by simp)
    rw [if_neg hs2] at h
    split at h
    · exact absurd h (by simp)
    · rename_i r hres
      cases h
      exact ⟨rfl, resolve_expected_ok_pos _ _ _ _ _ _ _ _ _ _
        (lt_of_not_le h0) hres⟩

end Mcryptoex

namespace Mcryptoex

/-- Truncation toward zero agrees with the floor on non-negative
rationals. -/
lemma ratTruncate_eq_floor_of_nonneg (q : ℚ) (h : 0 ≤ q) :
    ratTruncate q = ⌊q⌋ := by
  unfold ratTruncate
  rw [Rat.floor_def]
  exact Int.tdiv_eq_ediv (Rat.num_nonneg.mpr h) (by positivity)

/-- C5: a successful quote's `min_out` string is obtained from
`expected_out × (10000 − slippage_bps)/10000` by the `ROUND_DOWN`
quantization at the output token's declared decimals with trailing zeros
stripped (`format_amount_for_decimals`); the expected output is positive, and
for `slippage_bps ∈ [0, 10000]` the quantized value is non-negative, so the
`ROUND_DOWN` truncation used by the formatter is exactly the floor. -/
theorem C5_min_out_floor_formula
    (lookupChain : ℤ → Option ChainLiquidityState) (allow : Bool)
    (chain_id : ℤ) (token_in token_out : String) (amount_in : ℚ)
    (slippage_bps : ℤ) (q : QuoteResult)
    (h : build_quote lookupChain allow chain_id token_in token_out amount_in
      slippage_bps = .ok q) :
    ∃ c, build_quote_core lookupChain allow chain_id token_in token_out
        amount_in slippage_bps = .ok c ∧
      q.min_out = format_amount_for_decimals c.min_out c.token_out_decimals ∧
      c.min_out = c.expected_out * (((10000 - slippage_bps : ℤ) : ℚ) / 10000) ∧
      0 < c.expected_out ∧
      (0 ≤ slippage_bps → slippage_bps ≤ 10000 →
        0 ≤ c.min_out ∧
        ∀ d : ℕ, ratTruncate (c.min_out * ((10 ^ d : ℕ) : ℚ)) =
          ⌊c.min_out * ((10 ^ d : ℕ) : ℚ)⌋) := by
  unfold build_quote at h
  cases hc : build_quote_core lookupChain allow chain_id token_in token_out
      amount_in slippage_bps with
  | error e => rw [hc] at h; exact absurd h (by simp [Except.map])
  | ok c =>
    rw [hc] at h
    simp only [Except.map, Except.ok.injEq] at h
    obtain ⟨hformula, hpos⟩ := build_quote_core_ok lookupChain allow chain_id
      token_in token_out amount_in slippage_bps c hc
    refine ⟨c, rfl, ?_, hformula, hpos, ?_⟩
    · rw [← h]; rfl
    · intro hs0 hs1
      have hfac : (0 : ℚ) ≤ ((10000 - slippage_bps : ℤ) : ℚ) / 10000 := by
        have : (0 : ℚ) ≤ ((10000 - slippage_bps : ℤ) : ℚ) := by
          push_cast
          have : ((slippage_bps : ℚ)) ≤ 10000 := by exact_mod_cast hs1
          linarith
        positivity
      have hmo : 0 ≤ c.min_out := by
        rw [hformula]; exact mul_nonneg hpos.le hfac
      refine ⟨hmo, fun d => ?_⟩
      exact ratTruncate_eq_floor_of_nonneg _ (by positivity)

end Mcryptoex

namespace Mcryptoex

/-- A concrete chain state with one mUSD/WETH pool. -/
def sampleState : ChainLiquidityState :=
  { chain_id := 31337, symbols := ["MUSD", "WETH"],
    canonical_symbols := [("MUSD", "mUSD"), ("WETH", "WETH")],
    token_decimals := [("MUSD", 6), ("WETH", 8)],
    pairs := [⟨"0xdead", "mUSD", "WETH", 1000, 10⟩],
    swap_fee_bps := 30, protocol_fee_bps := 5 }

/-- A cache lookup knowing only chain 31337. -/
def sampleLookup : ℤ → Option ChainLiquidityState :=
  fun i => if i = 31337 then some sampleState else none

/-- The quote for 100 mUSD → WETH at 50 bps slippage on `sampleState`. -/
def sampleQuote : QuoteResult :=
  { chain_id := 31337, token_in := "mUSD", token_out := "WETH",
    amount_in := "100", expected_out := "0.90661089",
    min_out := "0.90207783", slippage_bps := 50,
    route := ["mUSD", "WETH"], route_depth := 10,
    liquidity_source := "onchain-cache", total_fee_bps := 30,
    protocol_fee_bps := 5, lp_fee_bps := 25,
    protocol_fee_amount_in := "0.05", engine := "harmony-engine-v2" }

unseal Rat.mul Rat.inv Rat.add Rat.sub in
/-- Witness for `C5_min_out_floor_formula` on the sample quote. -/
theorem C5_min_out_floor_formula_witness :
    ∃ c, build_quote_core sampleLookup false 31337 "mUSD" "WETH" 100 50 =
        .ok c ∧
      sampleQuote.min_out =
        format_amount_for_decimals c.min_out c.token_out_decimals ∧
      c.min_out = c.expected_out * (((10000 - 50 : ℤ) : ℚ) / 10000) ∧
      0 < c.expected_out ∧
      ((0 : ℤ) ≤ 50 → (50 : ℤ) ≤ 10000 →
        0 ≤ c.min_out ∧
        ∀ d : ℕ, ratTruncate (c.min_out * ((10 ^ d : ℕ) : ℚ)) =
          ⌊c.min_out * ((10 ^ d : ℕ) : ℚ)⌋) :=
  C5_min_out_floor_formula sampleLookup false 31337 "mUSD" "WETH" 100 50
    sampleQuote (by rfl)

end Mcryptoex

namespace Mcryptoex

/-! ## Canonical pair selection (`_select_canonical_pairs`, lines 93-127)

Python string comparison (code-point lexicographic) is embedded as a
structural function on the character lists; the env-parsed allowlists of
`_parse_canonical_pool_allowlist` are passed as arguments. -/

lemma charListLt_irrefl (l : List Char) : charListLt l l = false := by
  induction l with
  | nil => rfl
  | cons a as ih => simp [charListLt, ih]

lemma charListLt_trans {a b c : List Char} (h1 : charListLt a b = true)
    (h2 : charListLt b c = true) : charListLt a c = true := by
  induction a generalizing b c with
  | nil =>
    cases c with
    | nil =>
      cases b with
      | nil => exact h1
      | cons y ys => simp [charListLt] at h2
    | cons z zs => rfl
  | cons x xs ih =>
    cases b with
    | nil => simp [charListLt] at h1
    | cons y ys =>
      cases c with
      | nil => simp [charListLt] at h2
      | cons z zs =>
        simp only [charListLt] at h1 h2 ⊢
        by_cases hxy : x < y
        · by_cases hyz : y < z
          · rw [if_pos (lt_trans hxy hyz)]
          · rw [if_pos hxy] at h1
            rw [if_neg hyz] at h2
            by_cases hzy : z < y
            · rw [if_pos hzy] at h2; exact absurd h2 (by simp)
            · rw [if_neg hzy] at h2
              have hyez : y = z := le_antisymm (not_lt.mp hzy) (not_lt.mp hyz)
              rw [if_pos (hyez ▸ hxy)]
        · rw [if_neg hxy] at h1
          by_cases hyx : y < x
          · rw [if_pos hyx] at h1; exact absurd h1 (by simp)
          · rw [if_neg hyx] at h1
            have hxey : x = y := le_antisymm (not_lt.mp hyx) (not_lt.mp hxy)
            subst hxey
            by_cases hyz : x < z
            · rw [if_pos hyz]
            · rw [if_neg hyz] at h2 ⊢
              by_cases hzy : z < x
              · rw [if_pos hzy] at h2; exact absurd h2 (by simp)
              · rw [if_neg hzy] at h2 ⊢
                exact ih h1 h2

lemma charListLt_connex {a b : List Char} (h1 : charListLt a b = false)
    (h2 : charListLt b a = false) : a = b := by
  induction a generalizing b with
  | nil =>
    cases b with
    | nil => rfl
    | cons y ys => simp [charListLt] at h1
  | cons x xs ih =>
    cases b with
    | nil => simp [charListLt] at h2
    | cons y ys =>
      simp only [charListLt] at h1 h2
      by_cases hxy : x < y
      · rw [if_pos hxy] at h1; exact absurd h1 (by simp)
      · by_cases hyx : y < x
        · rw [if_pos hyx] at h2; exact absurd h2 (by simp)
        · have hxey : x = y := le_antisymm (not_lt.mp hyx) (not_lt.mp hxy)
          rw [if_neg hxy, if_neg hyx] at h1
          rw [if_neg hyx, if_neg hxy] at h2
          rw [hxey, ih h1 h2]

end Mcryptoex

namespace Mcryptoex

/-- The Python sort key `(liquidity score, normalized address)` of a pool. -/
def pair_sort_key (pair : PairState) : ℚ × String :=
  (pair_liquidity_score pair, normalize_pool_address pair.pair_address)

/-- `candidates.sort(key=..., reverse=True)` order: `a` precedes `b` when
`a`'s key is lexicographically at least `b`'s. -/
def pair_sort_ge (a b : PairState) : Bool :=
  decide ((pair_sort_key b).1 < (pair_sort_key a).1) ||
    (decide ((pair_sort_key b).1 = (pair_sort_key a).1) &&
      (pyStrLt (pair_sort_key b).2 (pair_sort_key a).2 ||
        (pair_sort_key b).2 == (pair_sort_key a).2))

/-- Whether the pool's normalized address is in the global or the per-chain
allowlist (the membership tests at lines 109-116). -/
def pair_allowlisted (chain_id : ℤ) (global_allowlist : List String)
    (chain_allowlist : List (ℤ × String)) (pair : PairState) : Bool :=
  global_allowlist.contains (normalize_pool_address pair.pair_address) ||
    chain_allowlist.contains (chain_id, normalize_pool_address pair.pair_address)

/-- One step of the `grouped.setdefault(symbol_key, []).append(pair)` dict
construction: append to the existing group or start a new one (insertion
order preserved). -/
def group_insert (acc : List ((String × String) × List PairState))
    (key : String × String) (p : PairState) :
    List ((String × String) × List PairState) :=
  if acc.any (fun g => g.1 == key) then
    acc.map (fun g => if g.1 == key then (g.1, g.2 ++ [p]) else g)
  else acc ++ [(key, [p])]

/-- The loop body at lines 99-103: skip pairs with an empty symbol-key
component, group the rest. -/
def group_step (acc : List ((String × String) × List PairState))
    (pair : PairState) : List ((String × String) × List PairState) :=
  let symbol_key := pair_symbol_key pair.token0_symbol pair.token1_symbol
  if symbol_key.1 = "" ∨ symbol_key.2 = "" then acc
  else group_insert acc symbol_key pair

/-- The `grouped` dict of `_select_canonical_pairs` as an insertion-ordered
association list. -/
def group_pairs (pairs : List PairState) :
    List ((String × String) × List PairState) :=
  pairs.foldl group_step []

/-- Lines 109-117: the allowlisted subset when non-empty, else the whole
group. -/
def candidates_of (chain_id : ℤ) (global_allowlist : List String)
    (chain_allowlist : List (ℤ × String)) (group : List PairState) :
    List PairState :=
  let allowlisted_group :=
    group.filter (pair_allowlisted chain_id global_allowlist chain_allowlist)
  if allowlisted_group ≠ [] then allowlisted_group else group

/-- Insert into a descending-sorted list after every element whose key is at
least as large (the placement that makes insertion sort stable). -/
def insortDesc {α : Type} (ge : α → α → Bool) (x : α) : List α → List α
  | [] => [x]
  | y :: ys => if ge y x then y :: insortDesc ge x ys else x :: y :: ys

/-- Stable descending sort (Python `list.sort(key=..., reverse=True)`):
left-to-right insertion keeps the input order of equal keys. -/
def stableSortDesc {α : Type} (ge : α → α → Bool) (l : List α) : List α :=
  l.foldl (fun acc x => insortDesc ge x acc) []

/-- `_select_canonical_pairs` (lines 93-127): group by symbol key, prefer
allowlisted candidates, sort by `(score, address)` descending
(`reverse=True`, stable) and keep `candidates[0]` of each group. -/
def select_canonical_pairs (chain_id : ℤ) (global_allowlist : List String)
    (chain_allowlist : List (ℤ × String)) (pairs : List PairState) :
    List PairState :=
  if pairs = [] then []
  else
    (group_pairs pairs).filterMap (fun g =>
      if g.2 = [] then none
      else (stableSortDesc pair_sort_ge (candidates_of chain_id
        global_allowlist chain_allowlist g.2)).head?)

/-- The descending key order is total. -/
lemma pair_sort_ge_total (a b : PairState) :
    (pair_sort_ge a b || pair_sort_ge b a) = true := by
  unfold pair_sort_ge
  rcases lt_trichotomy (pair_sort_key b).1 (pair_sort_key a).1 with h | h | h
  · simp [h]
  · by_cases hs : pyStrLt (pair_sort_key b).2 (pair_sort_key a).2
    · simp [h, hs]
    · by_cases hs2 : pyStrLt (pair_sort_key a).2 (pair_sort_key b).2
      · simp [h, hs2]
      · have : (pair_sort_key b).2 = (pair_sort_key a).2 :=
          String.ext (charListLt_connex
            (by simpa [pyStrLt] using hs) (by simpa [pyStrLt] using hs2))
        simp [h, this]
  · simp [h]

/-- The descending key order is transitive. -/
lemma pair_sort_ge_trans (a b c : PairState)
    (h1 : pair_sort_ge a b = true) (h2 : pair_sort_ge b c = true) :
    pair_sort_ge a c = true := by
  unfold pair_sort_ge at h1 h2 ⊢
  simp only [Bool.or_eq_true, Bool.and_eq_true, decide_eq_true_eq,
    beq_iff_eq] at h1 h2 ⊢
  rcases h1 with h1 | ⟨h1e, h1s⟩
  · rcases h2 with h2 | ⟨h2e, h2s⟩
    · exact Or.inl (lt_trans h2 h1)
    · exact Or.inl (h2e ▸ h1)
  · rcases h2 with h2 | ⟨h2e, h2s⟩
    · exact Or.inl (h1e ▸ h2)
    · refine Or.inr ⟨h2e.trans h1e, ?_⟩
      rcases h1s with h1s | h1s <;> rcases h2s with h2s | h2s
      · exact Or.inl (by
          have := charListLt_trans (by simpa [pyStrLt] using h2s)
            (by simpa [pyStrLt] using h1s)
          simpa [pyStrLt] using this)
      · exact Or.inl (h2s ▸ h1s)
      · exact Or.inl (h1s ▸ h2s)
      · exact Or.inr (h2s.trans h1s)

end Mcryptoex

namespace Mcryptoex

/-- Membership in an insertion. -/
lemma mem_insortDesc {α : Type} (ge : α → α → Bool) (x : α) (l : List α)
    (z : α) : z ∈ insortDesc ge x l ↔ z = x ∨ z ∈ l := by
  induction l with
  | nil => simp [insortDesc]
  | cons y ys ih =>
    rw [insortDesc]
    by_cases h : ge y x
    · rw [if_pos h]
      simp [ih]
      tauto
    · rw [if_neg h]
      simp

/-- An insertion into a descending-pairwise list stays
descending-pairwise. -/
lemma pairwise_insortDesc {α : Type} (ge : α → α → Bool)
    (htrans : ∀ a b c, ge a b = true → ge b c = true → ge a c = true)
    (htotal : ∀ a b, (ge a b || ge b a) = true) (x : α) (l : List α)
    (hl : l.Pairwise (fun a b => ge a b = true)) :
    (insortDesc ge x l).Pairwise (fun a b => ge a b = true) := by
  induction l with
  | nil => simp [insortDesc]
  | cons y ys ih =>
    rcases List.pairwise_cons.mp hl with ⟨hy, hys⟩
    by_cases h : ge y x
    · rw [insortDesc, if_pos h]
      refine List.pairwise_cons.mpr ⟨?_, ih hys⟩
      intro z hz
      rcases (mem_insortDesc ge x ys z).mp hz with rfl | hz'
      · exact h
      · exact hy z hz'
    · rw [insortDesc, if_neg h]
      have hxy : ge x y = true := by
        have := htotal y x
        rcases Bool.or_eq_true_iff.mp this with h' | h'
        · exact absurd h' h
        · exact h'
      refine List.pairwise_cons.mpr ⟨?_, hl⟩
      intro z hz
      rcases List.mem_cons.mp hz with rfl | hz'
      · exact hxy
      · exact htrans x y z hxy (hy z hz')

/-- The stable sort is a permutation membership-wise and
descending-pairwise. -/
lemma stableSortDesc_invariant {α : Type} (ge : α → α → Bool)
    (htrans : ∀ a b c, ge a b = true → ge b c = true → ge a c = true)
    (htotal : ∀ a b, (ge a b || ge b a) = true) (l : List α) :
    (∀ z, z ∈ stableSortDesc ge l ↔ z ∈ l) ∧
    (stableSortDesc ge l).Pairwise (fun a b => ge a b = true) := by
  suffices h : ∀ (acc : List α),
      (acc.Pairwise (fun a b => ge a b = true)) →
      (∀ z, z ∈ l.foldl (fun acc x => insortDesc ge x acc) acc ↔
        z ∈ acc ∨ z ∈ l) ∧
      (l.foldl (fun acc x => insortDesc ge x acc) acc).Pairwise
        (fun a b => ge a b = true) by
    have := h [] (by simp)
    refine ⟨fun z => ?_, this.2⟩
    rw [stableSortDesc, (this.1 z)]
    simp
  induction l with
  | nil => intro acc hacc; exact ⟨fun z => by simp, hacc⟩
  | cons x xs ih =>
    intro acc hacc
    rw [List.foldl_cons]
    obtain ⟨hmem, hpw⟩ := ih (insortDesc ge x acc)
      (pairwise_insortDesc ge htrans htotal x acc hacc)
    refine ⟨fun z => ?_, hpw⟩
    rw [hmem z, mem_insortDesc]
    constructor
    · rintro (( rfl | hz) | hz) <;> simp [*]
    · rintro (hz | hz)
      · exact Or.inl (Or.inr hz)
      · rcases List.mem_cons.mp hz with rfl | hz'
        · exact Or.inl (Or.inl rfl)
        · exact Or.inr hz'

/-- The head of the stable descending sort is a maximum of the list. -/
lemma stableSortDesc_head_max (l : List PairState) (p : PairState)
    (hp : (stableSortDesc pair_sort_ge l).head? = some p) :
    p ∈ l ∧ ∀ q ∈ l, pair_sort_ge p q = true := by
  obtain ⟨hmem, hpw⟩ := stableSortDesc_invariant pair_sort_ge
    pair_sort_ge_trans pair_sort_ge_total l
  cases hm : stableSortDesc pair_sort_ge l with
  | nil => rw [hm] at hp; simp at hp
  | cons x xs =>
    rw [hm] at hp
    simp only [List.head?_cons, Option.some.injEq] at hp
    obtain rfl := hp
    rw [hm] at hpw
    refine ⟨(hmem x).mp (by rw [hm]; exact List.mem_cons_self _ _), ?_⟩
    intro q hq
    have hq' : q ∈ x :: xs := by rw [← hm]; exact (hmem q).mpr hq
    rcases List.mem_cons.mp hq' with rfl | hq''
    · have := pair_sort_ge_total q q
      simpa using this
    · exact (List.pairwise_cons.mp hpw).1 q hq''

end Mcryptoex

namespace Mcryptoex

/-- `group_insert` keeps groups non-empty and their members within `P`. -/
lemma group_insert_invariant (P : PairState → Prop)
    (acc : List ((String × String) × List PairState))
    (key : String × String) (p : PairState)
    (hacc : ∀ g ∈ acc, g.2 ≠ [] ∧ ∀ q ∈ g.2, P q) (hp : P p) :
    ∀ g ∈ group_insert acc key p, g.2 ≠ [] ∧ ∀ q ∈ g.2, P q := by
  intro g hg
  unfold group_insert at hg
  by_cases hmem : acc.any (fun g => g.1 == key)
  · rw [if_pos hmem] at hg
    rcases List.mem_map.mp hg with ⟨g0, hg0, rfl⟩
    by_cases hk : g0.1 == key
    · rw [if_pos hk]
      refine ⟨by simp, ?_⟩
      intro q hq
      rcases List.mem_append.mp hq with h | h
      · exact (hacc g0 hg0).2 q h
      · simp at h; subst h; exact hp
    · rw [if_neg hk]
      exact hacc g0 hg0
  · rw [if_neg hmem] at hg
    rcases List.mem_append.mp hg with h | h
    · exact hacc _ h
    · simp at h
      subst h
      refine ⟨by simp, ?_⟩
      intro q hq
      simp at hq
      subst hq
      exact hp

/-- Fold invariant of the grouping loop of `_select_canonical_pairs`. -/
lemma group_fold_invariant (P : PairState → Prop) :
    ∀ (ps : List PairState)
      (acc : List ((String × String) × List PairState)),
      (∀ g ∈ acc, g.2 ≠ [] ∧ ∀ q ∈ g.2, P q) → (∀ p ∈ ps, P p) →
      ∀ g ∈ ps.foldl group_step acc, g.2 ≠ [] ∧ ∀ q ∈ g.2, P q := by
  intro ps
  induction ps with
  | nil => intro acc hacc _; simpa using hacc
  | cons p ps ih =>
    intro acc hacc hps
    rw [List.foldl_cons]
    refine ih (group_step acc p) ?_
      (fun q hq => hps q (List.mem_cons_of_mem _ hq))
    unfold group_step
    dsimp only
    by_cases hskip :
      (pair_symbol_key p.token0_symbol p.token1_symbol).1 = "" ∨
      (pair_symbol_key p.token0_symbol p.token1_symbol).2 = ""
    · rw [if_pos hskip]; exact hacc
    · rw [if_neg hskip]
      exact group_insert_invariant P acc _ p hacc
        (hps p (List.mem_cons_self _ _))

/-- The groups of `group_pairs` are non-empty and drawn from the input. -/
lemma group_pairs_invariant (pairs : List PairState) :
    ∀ g ∈ group_pairs pairs, g.2 ≠ [] ∧ ∀ q ∈ g.2, q ∈ pairs :=
  group_fold_invariant (· ∈ pairs) pairs [] (by simp) (fun _ h => h)

/-- `filterMap` with an everywhere-`some` function preserves length. -/
lemma length_filterMap_of_isSome {α β : Type} (f : α → Option β)
    (l : List α) (h : ∀ a ∈ l, (f a).isSome = true) :
    (l.filterMap f).length = l.length := by
  induction l with
  | nil => rfl
  | cons x xs ih =>
    rw [List.filterMap_cons]
    cases hf : f x with
    | none => exact absurd (hf ▸ h x (List.mem_cons_self _ _)) (by simp)
    | some b =>
      simp only [List.length_cons]
      rw [ih (fun a ha => h a (List.mem_cons_of_mem _ ha))]

/-- The candidate set of a non-empty group is non-empty, and a subset of the
group. -/
lemma candidates_of_props (chain_id : ℤ) (ga : List String)
    (ca : List (ℤ × String)) (group : List PairState) :
    (group ≠ [] → candidates_of chain_id ga ca group ≠ []) ∧
    (∀ q ∈ candidates_of chain_id ga ca group, q ∈ group) ∧
    ((∃ r ∈ group, pair_allowlisted chain_id ga ca r = true) →
      ∀ q ∈ candidates_of chain_id ga ca group,
        pair_allowlisted chain_id ga ca q = true) := by
  unfold candidates_of
  dsimp only
  by_cases hfe : group.filter (pair_allowlisted chain_id ga ca) ≠ []
  · rw [if_pos hfe]
    refine ⟨fun _ => hfe, fun q hq => (List.mem_filter.mp hq).1, ?_⟩
    intro _ q hq
    exact (List.mem_filter.mp hq).2
  · rw [if_neg hfe]
    refine ⟨fun h => h, fun q hq => hq, ?_⟩
    rintro ⟨r, hr, hra⟩
    simp only [ne_eq, not_not, List.filter_eq_nil_iff] at hfe
    exact absurd hra (hfe r hr)

end Mcryptoex

namespace Mcryptoex

/-- C6 (amended): canonical pair selection groups pools by
`(UPPER symbol pair)`, prefers allowlisted pools, and keeps exactly one pool
per symbol group — a maximum of the candidate set under the
`(reserve0 × reserve1, normalized pool_address)` key in descending order
(there is no `checked_at` field, the address tiebreak is descending, and a
group is never kept whole, valid addresses or not). -/
theorem C6_select_canonical_pairs (chain_id : ℤ) (ga : List String)
    (ca : List (ℤ × String)) (pairs : List PairState) :
    (select_canonical_pairs chain_id ga ca pairs).length =
      (group_pairs pairs).length ∧
    (∀ p ∈ select_canonical_pairs chain_id ga ca pairs, p ∈ pairs) ∧
    (∀ g ∈ group_pairs pairs,
      ∃ p ∈ select_canonical_pairs chain_id ga ca pairs,
        p ∈ candidates_of chain_id ga ca g.2 ∧
        (∀ q ∈ candidates_of chain_id ga ca g.2, pair_sort_ge p q = true) ∧
        ((∃ r ∈ g.2, pair_allowlisted chain_id ga ca r = true) →
          pair_allowlisted chain_id ga ca p = true)) := by
  by_cases hpe : pairs = []
  · subst hpe
    refine ⟨by simp [select_canonical_pairs, group_pairs], ?_, ?_⟩
    · intro p hp
      simp [select_canonical_pairs] at hp
    · intro g hg
      simp [group_pairs] at hg
  · have heq : select_canonical_pairs chain_id ga ca pairs =
        (group_pairs pairs).filterMap (fun g =>
          if g.2 = [] then none
          else (stableSortDesc pair_sort_ge
            (candidates_of chain_id ga ca g.2)).head?) := by
      rw [select_canonical_pairs, if_neg hpe]
    have hpsome : ∀ g ∈ group_pairs pairs,
        ((fun (g : (String × String) × List PairState) =>
          if g.2 = [] then none
          else (stableSortDesc pair_sort_ge
            (candidates_of chain_id ga ca g.2)).head?) g).isSome = true := by
      intro g hg
      obtain ⟨hne, -⟩ := group_pairs_invariant pairs g hg
      dsimp only
      rw [if_neg hne]
      have hcne := (candidates_of_props chain_id ga ca g.2).1 hne
      cases hm : stableSortDesc pair_sort_ge
          (candidates_of chain_id ga ca g.2) with
      | nil =>
        obtain ⟨hmem, -⟩ := stableSortDesc_invariant pair_sort_ge
          pair_sort_ge_trans pair_sort_ge_total
          (candidates_of chain_id ga ca g.2)
        rcases List.exists_mem_of_ne_nil _ hcne with ⟨c, hc⟩
        have hcmem := (hmem c).mpr hc
        rw [hm] at hcmem
        simp at hcmem
      | cons x xs => simp
    refine ⟨?_, ?_, ?_⟩
    · rw [heq]
      exact length_filterMap_of_isSome _ (group_pairs pairs) hpsome
    · intro p hp
      rw [heq] at hp
      rcases List.mem_filterMap.mp hp with ⟨g, hg, hpg⟩
      obtain ⟨hne, hsub⟩ := group_pairs_invariant pairs g hg
      rw [if_neg hne] at hpg
      obtain ⟨hmemc, -⟩ := stableSortDesc_head_max _ p hpg
      exact hsub p ((candidates_of_props chain_id ga ca g.2).2.1 p hmemc)
    · intro g hg
      obtain ⟨hne, hsub⟩ := group_pairs_invariant pairs g hg
      have hs := hpsome g hg
      dsimp only at hs
      rw [if_neg hne] at hs
      rcases Option.isSome_iff_exists.mp hs with ⟨p, hpg⟩
      obtain ⟨hmemc, hmax⟩ := stableSortDesc_head_max _ p hpg
      refine ⟨p, ?_, hmemc, hmax, ?_⟩
      · rw [heq]
        exact List.mem_filterMap.mpr ⟨g, hg, by rw [if_neg hne]; exact hpg⟩
      · intro hex
        exact (candidates_of_props chain_id ga ca g.2).2.2 hex p hmemc

end Mcryptoex

namespace Mcryptoex

/-- Two pools of the same symbol pair with equal reserves and invalid
(non-EVM) addresses. -/
def poolA : PairState := ⟨"a", "X", "Y", 1, 1⟩

/-- See `poolA`; only the address differs. -/
def poolB : PairState := ⟨"b", "X", "Y", 1, 1⟩

unseal Rat.mul Rat.inv Rat.add Rat.sub in
/-- C6, as stated, is false: in a symbol group in which no pool has a valid
EVM address, `_select_canonical_pairs` still retains exactly one pool (the
one with the larger normalized address — the tiebreak is descending), not
all of them. -/
theorem C6_counterexample :
    is_evm_pool_address poolA.pair_address = false ∧
    is_evm_pool_address poolB.pair_address = false ∧
    select_canonical_pairs 1 [] [] [poolA, poolB] = [poolB] ∧
    ¬ select_canonical_pairs 1 [] [] [poolA, poolB] = [poolA, poolB] := by
  refine ⟨by decide, by decide, by decide, by decide⟩

end Mcryptoex
